import Mathlib

/-!
Verification of the weather-agent tool-calling protocol against its
implementation in `mock_weather_server.py` and `weather_mcp_server.py`.

The servers exchange one JSON message per line over standard streams.  The
value universe crossing that boundary (Python values accepted and produced by
`json.loads` / `json.dumps`) is embedded as the mutual inductives `Json` /
`JItems` / `JFields` below, with two deliberate restrictions documented where
they matter:

* numbers are integers (`Int`); IEEE-754 floats are outside the shallow
  embedding, so JSON number literals with a fraction or exponent are not
  modelled;
* strings are lists of Unicode scalar values (`Char`); Python `str` can
  additionally hold lone surrogates, which cannot occur in well-formed text
  and are not modelled.

All definitions are plain structural recursions, so they evaluate by kernel
reduction and concrete instances can be checked with `rfl` / `decide`.
-/

mutual
/-- Python values that cross the `json` boundary in the two servers:
`None`, `bool`, `int`, `str`, `list`, `dict` (string keys, insertion order).
Sequences and mappings are the mutual types `JItems` and `JFields`, keeping
every recursion structural. -/
inductive Json where
  | null : Json
  | bool (b : Bool) : Json
  | num (n : Int) : Json
  | str (s : List Char) : Json
  | arr (elems : JItems) : Json
  | obj (members : JFields) : Json

/-- The elements of a JSON array, oldest first. -/
inductive JItems where
  | nil : JItems
  | cons (hd : Json) (tl : JItems) : JItems

/-- The members of a JSON object in insertion order; keys are strings. -/
inductive JFields where
  | nil : JFields
  | cons (key : List Char) (val : Json) (tl : JFields) : JFields
end

/-- Character lists stand in for Python strings throughout. -/
abbrev Chars := List Char

/-- Shorthand turning a Lean string literal into the `Chars` it denotes. -/
def chars (s : String) : Chars := s.toList

/-- Array elements given as a Lean list literal. -/
def jitems : List Json → JItems
  | [] => JItems.nil
  | x :: xs => JItems.cons x (jitems xs)

/-- Object members given as a Lean list literal. -/
def jfields : List (Chars × Json) → JFields
  | [] => JFields.nil
  | (k, v) :: kvs => JFields.cons k v (jfields kvs)

/-- A JSON object from a member list literal. -/
def jobj (kvs : List (Chars × Json)) : Json := Json.obj (jfields kvs)

/-- A JSON array from an element list literal. -/
def jarr (xs : List Json) : Json := Json.arr (jitems xs)

/-- A JSON string from a Lean string literal. -/
def jstr (s : String) : Json := Json.str s.toList

/-- First-match member lookup, the read side of a Python `dict` (whose keys
are unique, so first match is the match). -/
def lookupKvs : JFields → Chars → Option Json
  | JFields.nil, _ => none
  | JFields.cons k v rest, key => if k = key then some v else lookupKvs rest key

/-- Whether a key is present, as a Boolean. -/
def hasKey : JFields → Chars → Bool
  | JFields.nil, _ => false
  | JFields.cons k _ rest, key => k = key || hasKey rest key

/-- One `dict` insertion: an existing key keeps its position and takes the new
value; a fresh key is appended.  This is CPython's ordered-`dict` update. -/
def dictUpdate : JFields → Chars → Json → JFields
  | JFields.nil, key, v => JFields.cons key v JFields.nil
  | JFields.cons k w rest, key, v =>
    if k = key then JFields.cons k v rest else JFields.cons k w (dictUpdate rest key v)

/-- Building a `dict` from parsed member pairs, as `dict(pairs)` does in
Python: later values for a repeated key win, the first occurrence fixes the
position. -/
def dictOfPairsAux (acc : JFields) : JFields → JFields
  | JFields.nil => acc
  | JFields.cons k v rest => dictOfPairsAux (dictUpdate acc k v) rest

/-- The `dict(pairs)` built from a member list. -/
def dictOfPairs (fs : JFields) : JFields := dictOfPairsAux JFields.nil fs

/-- Python `value == "literal"` for a string literal: true exactly on an equal
`str`; any non-string value compares unequal. -/
def pyEqStr (v : Json) (s : Chars) : Bool :=
  match v with
  | Json.str t => t = s
  | _ => false

/-- Python truthiness of a value, as used by `result if result else ...`. -/
def pyTruthy : Json → Bool
  | Json.null => false
  | Json.bool b => b
  | Json.num n => n ≠ 0
  | Json.str s => ¬s.isEmpty
  | Json.arr JItems.nil => false
  | Json.arr (JItems.cons _ _) => true
  | Json.obj JFields.nil => false
  | Json.obj (JFields.cons _ _ _) => true

/-- The Python type name of a value, as it appears in an `AttributeError`. -/
def pyTypeName : Json → Chars
  | Json.null => chars "NoneType"
  | Json.bool _ => chars "bool"
  | Json.num _ => chars "int"
  | Json.str _ => chars "str"
  | Json.arr _ => chars "list"
  | Json.obj _ => chars "dict"

/-- The single-quote character, used in Python error messages and `repr`. -/
def sQuote : Char := Char.ofNat 39

/-- Message text of the `AttributeError` raised by `v.get(...)` on a value
with no `get` method, e.g. `'int' object has no attribute 'get'`. -/
def pyAttrGetMsg (v : Json) : Chars :=
  sQuote :: pyTypeName v
    ++ sQuote :: chars " object has no attribute "
    ++ sQuote :: chars "get" ++ [sQuote]

/-- Decimal digit character for `d < 10`. -/
def decDigit (d : Nat) : Char := Char.ofNat (48 + d)

/-- Decimal digits of `n`, most significant first; fuel-indexed so that the
definition is structural and kernel-reducible.  Any `fuel > n` is enough. -/
def natCharsF : Nat → Nat → Chars
  | 0, _ => []
  | fuel + 1, n =>
    if n < 10 then [decDigit n]
    else natCharsF fuel (n / 10) ++ [decDigit (n % 10)]

/-- Decimal digits of a natural number, as written by Python's `repr`. -/
def natChars (n : Nat) : Chars := natCharsF (n + 1) n

/-- Decimal rendering of an integer: optional minus sign, then digits. -/
def intChars (i : Int) : Chars :=
  if i < 0 then '-' :: natChars i.natAbs else natChars i.toNat

/-- Lowercase hexadecimal digit character for `d < 16`. -/
def hexDigit (d : Nat) : Char :=
  if d < 10 then Char.ofNat (48 + d) else Char.ofNat (87 + d)

/-- Four lowercase hex digits of `n < 0x10000`, as in Python's `\uXXXX`. -/
def hex4 (n : Nat) : Chars :=
  [hexDigit (n / 4096 % 16), hexDigit (n / 256 % 16), hexDigit (n / 16 % 16), hexDigit (n % 16)]

/-- How `json.dumps` (defaults: `ensure_ascii=True`) writes one character of a
string: quote and backslash escaped, the five short escapes, `\uXXXX` for
other control characters and for all non-ASCII, astral characters as a
surrogate pair. -/
def jescape (c : Char) : Chars :=
  if c = '"' then ['\\', '"']
  else if c = '\\' then ['\\', '\\']
  else if c = Char.ofNat 8 then ['\\', 'b']
  else if c = Char.ofNat 9 then ['\\', 't']
  else if c = Char.ofNat 10 then ['\\', 'n']
  else if c = Char.ofNat 12 then ['\\', 'f']
  else if c = Char.ofNat 13 then ['\\', 'r']
  else if c.toNat < 32 then '\\' :: 'u' :: hex4 c.toNat
  else if c.toNat < 127 then [c]
  else if c.toNat < 65536 then '\\' :: 'u' :: hex4 c.toNat
  else
    '\\' :: 'u' :: hex4 (55296 + (c.toNat - 65536) / 1024)
      ++ '\\' :: 'u' :: hex4 (56320 + (c.toNat - 65536) % 1024)

/-- A whole string body, escaped. -/
def jescapeAll (s : Chars) : Chars := (s.map jescape).flatten

/-- String rendering of `json.dumps`: quoted, escaped body. -/
def dumpStr (s : Chars) : Chars := '"' :: jescapeAll s ++ ['"']

mutual
/-- Serialization of `json.dumps` with its default separators `", "` and
`": "` (the compact one-line form both servers print). -/
def dumps : Json → Chars
  | Json.null => chars "null"
  | Json.bool b => if b then chars "true" else chars "false"
  | Json.num n => intChars n
  | Json.str s => dumpStr s
  | Json.arr xs => '[' :: dumpsItems xs ++ [']']
  | Json.obj kvs => '{' :: dumpsFields kvs ++ ['}']

/-- Array elements joined by `", "`. -/
def dumpsItems : JItems → Chars
  | JItems.nil => []
  | JItems.cons x JItems.nil => dumps x
  | JItems.cons x (JItems.cons y tl) =>
    dumps x ++ ',' :: ' ' :: dumpsItems (JItems.cons y tl)

/-- Object members `"key": value` joined by `", "`. -/
def dumpsFields : JFields → Chars
  | JFields.nil => []
  | JFields.cons k v JFields.nil => dumpStr k ++ ':' :: ' ' :: dumps v
  | JFields.cons k v (JFields.cons k2 v2 tl) =>
    dumpStr k ++ ':' :: ' ' :: dumps v
      ++ ',' :: ' ' :: dumpsFields (JFields.cons k2 v2 tl)
end

/-- Transport encoding of one message: its compact JSON text plus the newline
that `print` appends; the codec's `encode`. -/
def encodeLine (j : Json) : Chars := dumps j ++ [Char.ofNat 10]

/-- The whitespace characters `json.loads` skips: space, tab, newline, CR. -/
def isJsonWs (c : Char) : Bool :=
  c = ' ' || c = Char.ofNat 9 || c = Char.ofNat 10 || c = Char.ofNat 13

/-- Drop leading JSON whitespace. -/
def dropWs : Chars → Chars
  | [] => []
  | c :: t => if isJsonWs c then dropWs t else c :: t

/-- Split off the leading run of decimal digits. -/
def digitSpan : Chars → Chars × Chars
  | [] => ([], [])
  | c :: t =>
    if c.isDigit then
      let (ds, r) := digitSpan t
      (c :: ds, r)
    else ([], c :: t)

/-- Numeric value of a digit run, most significant first. -/
def digitsVal (ds : Chars) : Nat :=
  ds.foldl (fun a c => 10 * a + (c.toNat - 48)) 0

/-- Value of one hexadecimal digit, either case. -/
def hexVal (c : Char) : Option Nat :=
  if 48 ≤ c.toNat ∧ c.toNat ≤ 57 then some (c.toNat - 48)
  else if 97 ≤ c.toNat ∧ c.toNat ≤ 102 then some (c.toNat - 87)
  else if 65 ≤ c.toNat ∧ c.toNat ≤ 70 then some (c.toNat - 55)
  else none

/-- Value of four hexadecimal digits. -/
def hexQuad (a b c d : Char) : Option Nat :=
  match hexVal a, hexVal b, hexVal c, hexVal d with
  | some va, some vb, some vc, some vd => some (4096 * va + 256 * vb + 16 * vc + vd)
  | _, _, _, _ => none

/-- Whether a code unit is a high (leading) surrogate. -/
def isHighSur (n : Nat) : Bool := 55296 ≤ n ∧ n ≤ 56319

/-- Whether a code unit is a low (trailing) surrogate. -/
def isLowSur (n : Nat) : Bool := 56320 ≤ n ∧ n ≤ 57343

/-- The short backslash escapes `json.loads` accepts. -/
def escCharOf (e : Char) : Option Char :=
  if e = '"' then some '"'
  else if e = '\\' then some '\\'
  else if e = '/' then some '/'
  else if e = 'b' then some (Char.ofNat 8)
  else if e = 'f' then some (Char.ofNat 12)
  else if e = 'n' then some (Char.ofNat 10)
  else if e = 'r' then some (Char.ofNat 13)
  else if e = 't' then some (Char.ofNat 9)
  else none

/-- Prefix a character onto the string being read. -/
def consStr (c : Char) : Option (Chars × Chars) → Option (Chars × Chars)
  | some (s, r) => some (c :: s, r)
  | none => none

/-- Read four hexadecimal digits, as after a `\u` introducer. -/
def readHex4 : Chars → Option (Nat × Chars)
  | a :: b :: c :: d :: t =>
    match hexQuad a b c d with
    | some n => some (n, t)
    | none => none
  | _ => none

/-- Read the `\uXXXX` of a low (trailing) surrogate, as the scanner does
right after a high surrogate. -/
def readLowSur : Chars → Option (Nat × Chars)
  | x :: y :: t =>
    if x = '\\' then
      if y = 'u' then
        match readHex4 t with
        | some (m, t3) => if isLowSur m then some (m, t3) else none
        | none => none
      else none
    else none
  | _ => none

/-- The scalar value of a decoded surrogate pair. -/
def combineSur (n m : Nat) : Nat := 65536 + 1024 * (n - 55296) + (m - 56320)

/-- Read one logical string character: the character `c` just taken from the
input together with the remaining text `t`.  Handles backslash escapes and
`\uXXXX` (with surrogate-pair joining) as `json.loads` does in strict mode;
raw control characters are rejected.  A lone surrogate, which Python would
keep as an unpaired `str` code unit, has no `Char` counterpart and is
rejected (see the header note on strings). -/
def readOne (c : Char) (t : Chars) : Option (Char × Chars) :=
  if c = '\\' then
    match t with
    | [] => none
    | e :: t1 =>
      if e = 'u' then
        match readHex4 t1 with
        | none => none
        | some (n, t2) =>
          if isHighSur n then
            match readLowSur t2 with
            | none => none
            | some (m, t3) => some (Char.ofNat (combineSur n m), t3)
          else if isLowSur n then none
          else some (Char.ofNat n, t2)
      else
        match escCharOf e with
        | some c2 => some (c2, t1)
        | none => none
  else if c.toNat < 32 then none
  else some (c, t)

/-- Read a JSON string body after its opening quote, up to and including the
closing quote.  The recursion is on fuel (one unit per logical character);
`readString` below supplies enough for any input. -/
def readStringF : Nat → Chars → Option (Chars × Chars)
  | 0, _ => none
  | fuel + 1, s =>
    match s with
    | [] => none
    | c :: t =>
      if c = '"' then some ([], t)
      else
        match readOne c t with
        | some (ch, rest) => consStr ch (readStringF fuel rest)
        | none => none

/-- Read a whole string body; every step consumes at least one character, so
`length + 1` fuel never runs out. -/
def readString (s : Chars) : Option (Chars × Chars) := readStringF (s.length + 1) s

/-- The three mutually recursive parsing functions at one fuel level. -/
structure JStep where
  pVal : Chars → Option (Json × Chars)
  pItems : Chars → Option (JItems × Chars)
  pFields : Chars → Option (JFields × Chars)

/-- The everywhere-failing parser, the zero-fuel base. -/
def jstepZero : JStep :=
  { pVal := fun _ => none, pItems := fun _ => none, pFields := fun _ => none }

/-- One value, dispatched on its first character as Python's scanner does:
string, object, array, the three literals, or an (integer) number.  Note the
integer restriction: a fraction or exponent part, which Python would read as
a float, is not consumed, so such documents fail to parse here. -/
def jstepVal (p : JStep) (s : Chars) : Option (Json × Chars) :=
  match s with
  | [] => none
  | c :: t =>
    if c = '"' then
      match readString t with
      | some (cs, r) => some (Json.str cs, r)
      | none => none
    else if c = '{' then
      match dropWs t with
      | [] => none
      | c2 :: t2 =>
        if c2 = '}' then some (Json.obj JFields.nil, t2)
        else
          match p.pFields (c2 :: t2) with
          | some (fs, r) => some (Json.obj (dictOfPairs fs), r)
          | none => none
    else if c = '[' then
      match dropWs t with
      | [] => none
      | c2 :: t2 =>
        if c2 = ']' then some (Json.arr JItems.nil, t2)
        else
          match p.pItems (c2 :: t2) with
          | some (xs, r) => some (Json.arr xs, r)
          | none => none
    else if c = 'n' then
      match t with
      | 'u' :: 'l' :: 'l' :: r => some (Json.null, r)
      | _ => none
    else if c = 't' then
      match t with
      | 'r' :: 'u' :: 'e' :: r => some (Json.bool true, r)
      | _ => none
    else if c = 'f' then
      match t with
      | 'a' :: 'l' :: 's' :: 'e' :: r => some (Json.bool false, r)
      | _ => none
    else if c = '-' then
      match digitSpan t with
      | ([], _) => none
      | (ds, r) => some (Json.num (-(digitsVal ds : Int)), r)
    else if c.isDigit then
      match digitSpan t with
      | (ds, r) => some (Json.num (digitsVal (c :: ds) : Int), r)
    else none

/-- One-or-more comma-separated array elements, consuming the closing `]`. -/
def jstepItems (p : JStep) (s : Chars) : Option (JItems × Chars) :=
  match p.pVal s with
  | none => none
  | some (v, r) =>
    match dropWs r with
    | [] => none
    | c :: t =>
      if c = ',' then
        match p.pItems (dropWs t) with
        | some (vs, r2) => some (JItems.cons v vs, r2)
        | none => none
      else if c = ']' then some (JItems.cons v JItems.nil, t)
      else none

/-- One-or-more `"key": value` members, consuming the closing `}`. -/
def jstepFields (p : JStep) (s : Chars) : Option (JFields × Chars) :=
  match s with
  | [] => none
  | c :: t =>
    if c = '"' then
      match readString t with
      | none => none
      | some (k, r1) =>
        match dropWs r1 with
        | [] => none
        | c2 :: t2 =>
          if c2 = ':' then
            match p.pVal (dropWs t2) with
            | none => none
            | some (v, r2) =>
              match dropWs r2 with
              | [] => none
              | c3 :: t3 =>
                if c3 = ',' then
                  match p.pFields (dropWs t3) with
                  | some (fs, r3) => some (JFields.cons k v fs, r3)
                  | none => none
                else if c3 = '}' then some (JFields.cons k v JFields.nil, t3)
                else none
          else none
    else none

/-- Fuel-indexed parser: one fuel level per nested value or list step, so the
recursion is structural on the fuel and evaluates in the kernel. -/
def jparse : Nat → JStep
  | 0 => jstepZero
  | fuel + 1 =>
    { pVal := jstepVal (jparse fuel),
      pItems := jstepItems (jparse fuel),
      pFields := jstepFields (jparse fuel) }

/-- Parse one value with the given fuel. -/
def parseVal (fuel : Nat) : Chars → Option (Json × Chars) := (jparse fuel).pVal

/-- Deserialization of `json.loads`: skip surrounding whitespace, read one
value, and demand that nothing but whitespace follows; `none` is Python's
`json.JSONDecodeError`.  The input's length bounds every nesting depth, so
`length + 1` fuel never runs out on an accepted document. -/
def jsonLoads (s : Chars) : Option Json :=
  let t := dropWs s
  match parseVal (t.length + 1) t with
  | some (v, r) => if (dropWs r).isEmpty then some v else none
  | none => none

/-- The quote Python `repr` picks for a string: single quote, unless the text
contains one and no double quote. -/
def reprQuoteCh (s : Chars) : Char :=
  if sQuote ∈ s ∧ ¬('"' ∈ s) then '"' else sQuote

/-- One character inside a `repr` string literal with quote `q`.  Non-ASCII
printability (which would require the Unicode tables) is approximated by
keeping every character from 128 up as it is. -/
def reprEsc (q c : Char) : Chars :=
  if c = '\\' then ['\\', '\\']
  else if c = q then ['\\', q]
  else if c = Char.ofNat 10 then ['\\', 'n']
  else if c = Char.ofNat 13 then ['\\', 'r']
  else if c = Char.ofNat 9 then ['\\', 't']
  else if c.toNat < 32 ∨ c.toNat = 127 then
    ['\\', 'x', hexDigit (c.toNat / 16), hexDigit (c.toNat % 16)]
  else [c]

/-- Python `repr` of a string. -/
def pyReprStr (s : Chars) : Chars :=
  reprQuoteCh s :: (s.map (reprEsc (reprQuoteCh s))).flatten ++ [reprQuoteCh s]

mutual
/-- Python `repr` of a value (lists and dicts as they print themselves). -/
def pyRepr : Json → Chars
  | Json.null => chars "None"
  | Json.bool b => if b then chars "True" else chars "False"
  | Json.num n => intChars n
  | Json.str s => pyReprStr s
  | Json.arr xs => '[' :: pyReprItems xs ++ [']']
  | Json.obj kvs => '{' :: pyReprFields kvs ++ ['}']

/-- List elements in `repr` form, joined by `", "`. -/
def pyReprItems : JItems → Chars
  | JItems.nil => []
  | JItems.cons x JItems.nil => pyRepr x
  | JItems.cons x (JItems.cons y tl) =>
    pyRepr x ++ ',' :: ' ' :: pyReprItems (JItems.cons y tl)

/-- Dict members in `repr` form, joined by `", "`. -/
def pyReprFields : JFields → Chars
  | JFields.nil => []
  | JFields.cons k v JFields.nil => pyReprStr k ++ ':' :: ' ' :: pyRepr v
  | JFields.cons k v (JFields.cons k2 v2 tl) =>
    pyReprStr k ++ ':' :: ' ' :: pyRepr v
      ++ ',' :: ' ' :: pyReprFields (JFields.cons k2 v2 tl)
end

/-- Python `str()` of a value, as an f-string interpolates it: a string is
itself, everything else is its `repr`. -/
def pyStrOf (v : Json) : Chars :=
  match v with
  | Json.str s => s
  | _ => pyRepr v

/-- A raised Python exception, reduced to the message `str(e)` renders. -/
structure PyErr where
  msg : Chars

/-- Python `v.get(key, default)`: member lookup with a default on a `dict`,
an `AttributeError` on anything else. -/
def pyGetD (v : Json) (key : Chars) (dflt : Json) : Except PyErr Json :=
  match v with
  | Json.obj kvs => Except.ok ((lookupKvs kvs key).getD dflt)
  | _ => Except.error ⟨pyAttrGetMsg v⟩

/-- The `except Exception` wrapper both `handle_tool_call` bodies use: a
raised exception becomes the domain-level payload `{"error": str(e)}`. -/
def pyCatch (body : Except PyErr Json) : Except PyErr Json :=
  match body with
  | Except.ok r => Except.ok r
  | Except.error e => Except.ok (jobj [(chars "error", Json.str e.msg)])

/-- The four weather tools as opaque collaborators, in the argument order the
dispatchers pass: `get_current_weather(location, units)`,
`get_forecast(location, days, units)`, `get_alerts(location)`,
`get_air_quality(location)`.  Their bodies (mock tables, randomness, HTTP)
are outside the protocol core; an implementation may return a value or
raise. -/
structure ToolImpls where
  get_current_weather : Json → Json → Except PyErr Json
  get_forecast : Json → Json → Json → Except PyErr Json
  get_alerts : Json → Except PyErr Json
  get_air_quality : Json → Except PyErr Json

/-- The tool names the dispatch branches of both servers recognise. -/
def registeredToolNames : List Chars :=
  [chars "get_current_weather", chars "get_forecast",
   chars "get_alerts", chars "get_air_quality"]

/-- Embeds `mock_weather_server.handle_tool_call` (lines 191-224).  `wu` is
`os.getenv("WEATHER_UNITS")`.  The `units` lookup on line 195 runs before
the `try` block, so on a non-dict `arguments` its `AttributeError`
propagates to the caller instead of becoming an error payload. -/
def mockHandleToolCall (wu : Option Chars) (t : ToolImpls)
    (toolName arguments : Json) : Except PyErr Json :=
  match pyGetD arguments (chars "units") (Json.str (wu.getD (chars "metric"))) with
  | Except.error e => Except.error e
  | Except.ok units =>
    pyCatch (
      if pyEqStr toolName (chars "get_current_weather") then do
        let location ← pyGetD arguments (chars "location") (jstr "London")
        t.get_current_weather location units
      else if pyEqStr toolName (chars "get_forecast") then do
        let location ← pyGetD arguments (chars "location") (jstr "London")
        let days ← pyGetD arguments (chars "days") (Json.num 5)
        let units2 ← pyGetD arguments (chars "units") (Json.str (wu.getD (chars "metric")))
        t.get_forecast location days units2
      else if pyEqStr toolName (chars "get_alerts") then do
        let location ← pyGetD arguments (chars "location") (jstr "London")
        t.get_alerts location
      else if pyEqStr toolName (chars "get_air_quality") then do
        let location ← pyGetD arguments (chars "location") (jstr "London")
        t.get_air_quality location
      else
        Except.ok (jobj [(chars "error",
          Json.str (chars "Unknown tool: " ++ pyStrOf toolName))]))

/-- Embeds `weather_mcp_server.handle_tool_call` (lines 310-341).  Everything
runs inside the `try`; the `get_forecast` branch replaces a falsy result by
`{"error": "No forecast data available"}`. -/
def wmsHandleToolCall (t : ToolImpls) (toolName arguments : Json) : Except PyErr Json :=
  pyCatch (
    if pyEqStr toolName (chars "get_current_weather") then do
      let location ← pyGetD arguments (chars "location") (jstr "London")
      let units ← pyGetD arguments (chars "units") (jstr "metric")
      t.get_current_weather location units
    else if pyEqStr toolName (chars "get_forecast") then do
      let location ← pyGetD arguments (chars "location") (jstr "London")
      let days ← pyGetD arguments (chars "days") (Json.num 5)
      let units ← pyGetD arguments (chars "units") (jstr "metric")
      let r ← t.get_forecast location days units
      Except.ok (if pyTruthy r then r
        else jobj [(chars "error", jstr "No forecast data available")])
    else if pyEqStr toolName (chars "get_alerts") then do
      let location ← pyGetD arguments (chars "location") (jstr "London")
      t.get_alerts location
    else if pyEqStr toolName (chars "get_air_quality") then do
      let location ← pyGetD arguments (chars "location") (jstr "London")
      t.get_air_quality location
    else
      Except.ok (jobj [(chars "error",
        Json.str (chars "Unknown tool: " ++ pyStrOf toolName))]))

/-- Embeds `mock_weather_server.list_tools` (lines 227-275): the static tool
registry returned by a `tools/list` request. -/
def mockToolsJson : JItems := jitems
  [jobj [(chars "name", jstr "get_current_weather"),
         (chars "description", jstr "Get current weather for a location"),
         (chars "inputSchema", jobj
           [(chars "type", jstr "object"),
            (chars "properties", jobj
              [(chars "location", jobj
                [(chars "type", jstr "string"),
                 (chars "description", jstr "City name or coordinates")])]),
            (chars "required", jarr [jstr "location"])])],
   jobj [(chars "name", jstr "get_forecast"),
         (chars "description", jstr "Get weather forecast"),
         (chars "inputSchema", jobj
           [(chars "type", jstr "object"),
            (chars "properties", jobj
              [(chars "location", jobj [(chars "type", jstr "string")]),
               (chars "days", jobj
                 [(chars "type", jstr "integer"),
                  (chars "default", Json.num 5)])]),
            (chars "required", jarr [jstr "location"])])],
   jobj [(chars "name", jstr "get_alerts"),
         (chars "description", jstr "Get weather alerts"),
         (chars "inputSchema", jobj
           [(chars "type", jstr "object"),
            (chars "properties", jobj
              [(chars "location", jobj [(chars "type", jstr "string")])]),
            (chars "required", jarr [jstr "location"])])],
   jobj [(chars "name", jstr "get_air_quality"),
         (chars "description", jstr "Get air quality information"),
         (chars "inputSchema", jobj
           [(chars "type", jstr "object"),
            (chars "properties", jobj
              [(chars "location", jobj [(chars "type", jstr "string")])]),
            (chars "required", jarr [jstr "location"])])]]

/-- Embeds `weather_mcp_server.list_tools` (lines 344-392). -/
def wmsToolsJson : JItems := jitems
  [jobj [(chars "name", jstr "get_current_weather"),
         (chars "description", jstr "Get current weather conditions for a location"),
         (chars "inputSchema", jobj
           [(chars "type", jstr "object"),
            (chars "properties", jobj
              [(chars "location", jobj
                [(chars "type", jstr "string"),
                 (chars "description", jstr "City name")])]),
            (chars "required", jarr [jstr "location"])])],
   jobj [(chars "name", jstr "get_forecast"),
         (chars "description", jstr "Get weather forecast for multiple days"),
         (chars "inputSchema", jobj
           [(chars "type", jstr "object"),
            (chars "properties", jobj
              [(chars "location", jobj [(chars "type", jstr "string")]),
               (chars "days", jobj
                 [(chars "type", jstr "integer"),
                  (chars "default", Json.num 5)])]),
            (chars "required", jarr [jstr "location"])])],
   jobj [(chars "name", jstr "get_alerts"),
         (chars "description", jstr "Get weather alerts for a location"),
         (chars "inputSchema", jobj
           [(chars "type", jstr "object"),
            (chars "properties", jobj
              [(chars "location", jobj [(chars "type", jstr "string")])]),
            (chars "required", jarr [jstr "location"])])],
   jobj [(chars "name", jstr "get_air_quality"),
         (chars "description", jstr "Get air quality information"),
         (chars "inputSchema", jobj
           [(chars "type", jstr "object"),
            (chars "properties", jobj
              [(chars "location", jobj [(chars "type", jstr "string")])]),
            (chars "required", jarr [jstr "location"])])]]

/-- The success envelope both servers print: `{"jsonrpc": "2.0", "result":
..., "id": ...}`. -/
def successEnvelope (result requestId : Json) : Json :=
  jobj [(chars "jsonrpc", jstr "2.0"), (chars "result", result), (chars "id", requestId)]

/-- One decoded request through the dispatch of `main` (identical in
`mock_weather_server.py` lines 289-309 and `weather_mcp_server.py` lines
413-431, up to the tool handler `htc` and registry `tools`): read `method`,
`params` and `id` with their defaults, branch on the method, and wrap the
result in a success envelope.  An uncaught exception (modelled as
`Except.error`) falls to the `except Exception` arm of the caller. -/
def dispatchRequest (htc : Json → Json → Except PyErr Json) (tools : JItems)
    (request : Json) : Except PyErr Json := do
  let method ← pyGetD request (chars "method") Json.null
  let params ← pyGetD request (chars "params") (jobj [])
  let requestId ← pyGetD request (chars "id") (Json.num 1)
  let result ←
    if pyEqStr method (chars "tools/call") then do
      let toolName ← pyGetD params (chars "name") Json.null
      let arguments ← pyGetD params (chars "arguments") (jobj [])
      htc toolName arguments
    else if pyEqStr method (chars "tools/list") then
      Except.ok (jobj [(chars "tools", Json.arr tools)])
    else
      Except.ok (jobj [(chars "error",
        Json.str (chars "Unknown method: " ++ pyStrOf method))])
  Except.ok (successEnvelope result requestId)

/-- The `except json.JSONDecodeError` response of both server loops. -/
def parseErrorResponse : Json :=
  jobj [(chars "jsonrpc", jstr "2.0"),
        (chars "error", jobj [(chars "code", Json.num (-32700)),
                              (chars "message", jstr "Parse error")]),
        (chars "id", Json.null)]

/-- The `except Exception` response of both server loops. -/
def internalErrorResponse (msg : Chars) : Json :=
  jobj [(chars "jsonrpc", jstr "2.0"),
        (chars "error", jobj [(chars "code", Json.num (-32603)),
                              (chars "message", Json.str msg)]),
        (chars "id", Json.null)]

/-- One iteration of a server loop on one stdin line: decode, dispatch, and
print exactly one response line — the success envelope, the `-32700` parse
error on undecodable input, or the `-32603` internal error when the handling
raised. -/
def processLine (htc : Json → Json → Except PyErr Json) (tools : JItems)
    (line : Chars) : Chars :=
  match jsonLoads line with
  | none => encodeLine parseErrorResponse
  | some req =>
    match dispatchRequest htc tools req with
    | Except.ok resp => encodeLine resp
    | Except.error e => encodeLine (internalErrorResponse e.msg)

/-- The `while True` loop of `main`: one response line per stdin line, until
`readline` returns empty at end of stream. -/
def serverLoop (htc : Json → Json → Except PyErr Json) (tools : JItems) :
    List Chars → List Chars
  | [] => []
  | line :: rest => processLine htc tools line :: serverLoop htc tools rest

/-- A whole server run over the stdin lines: the stdout lines produced, and
the process exit code — `main` returns after the loop, so the interpreter
exits with status 0. -/
def serverMain (htc : Json → Json → Except PyErr Json) (tools : JItems)
    (stdinLines : List Chars) : List Chars × Nat :=
  (serverLoop htc tools stdinLines, 0)

/-- `mock_weather_server.main` on one decoded request. -/
def mockDispatch (wu : Option Chars) (t : ToolImpls) : Json → Except PyErr Json :=
  dispatchRequest (mockHandleToolCall wu t) mockToolsJson

/-- `mock_weather_server.main` on one stdin line. -/
def mockProcessLine (wu : Option Chars) (t : ToolImpls) : Chars → Chars :=
  processLine (mockHandleToolCall wu t) mockToolsJson

/-- `mock_weather_server.main`'s read loop. -/
def mockServerLoop (wu : Option Chars) (t : ToolImpls) : List Chars → List Chars :=
  serverLoop (mockHandleToolCall wu t) mockToolsJson

/-- A full `mock_weather_server` process run. -/
def mockServerMain (wu : Option Chars) (t : ToolImpls) (stdinLines : List Chars) :
    List Chars × Nat :=
  serverMain (mockHandleToolCall wu t) mockToolsJson stdinLines

/-- `weather_mcp_server.main` on one decoded request. -/
def wmsDispatch (t : ToolImpls) : Json → Except PyErr Json :=
  dispatchRequest (wmsHandleToolCall t) wmsToolsJson

/-- `weather_mcp_server.main` on one stdin line. -/
def wmsProcessLine (t : ToolImpls) : Chars → Chars :=
  processLine (wmsHandleToolCall t) wmsToolsJson

/-- `weather_mcp_server.main`'s read loop. -/
def wmsServerLoop (t : ToolImpls) : List Chars → List Chars :=
  serverLoop (wmsHandleToolCall t) wmsToolsJson

/-- A full `weather_mcp_server` process run. -/
def wmsServerMain (t : ToolImpls) (stdinLines : List Chars) : List Chars × Nat :=
  serverMain (wmsHandleToolCall t) wmsToolsJson stdinLines

/-- Python `range(n)` for a possibly negative bound. -/
def pyRange (n : Int) : List Int := (List.range n.toNat).map Int.ofNat

/-- Embeds the `FALLBACK_MODE` branch of `weather_mcp_server.get_forecast`
(lines 120-143): one record appended per `i in range(min(days, 3))`.  The
record construction (dates from `datetime.now`, temperatures and wind from
`random.uniform` around the fallback base weather) is abstracted as the
oracle `mk`. -/
def wmsGetForecastFallback (mk : Int → Json) (days : Int) : List Json :=
  (pyRange (min days 3)).map mk

/-- Embeds `mock_weather_server.get_forecast` (lines 127-155): one record
appended per `i in range(days)`, with the same abstraction as
`wmsGetForecastFallback`. -/
def mockGetForecast (mk : Int → Json) (days : Int) : List Json :=
  (pyRange days).map mk

/-- Modelled from the spec: the Transport Codec's `decode` of section 4.1
(`src/mcp_client.py`, the client-side codec user, is not in the sources),
which "fails with `MalformedMessage` when the line is not valid JSON or is
not a JSON object".  Used to compare the codec contract with what the
dispatcher does on a non-object line. -/
def codecDecode (line : Chars) : Option Json :=
  match jsonLoads line with
  | some (Json.obj kvs) => some (Json.obj kvs)
  | _ => none

/-- The `name` members of a tool registry, in order. -/
def toolNamesOf : JItems → List (Option Json)
  | JItems.nil => []
  | JItems.cons t rest =>
    (match t with
     | Json.obj kvs => lookupKvs kvs (chars "name")
     | _ => none) :: toolNamesOf rest

theorem char_eq_of_toNat_eq {c d : Char} (h : c.toNat = d.toNat) : c = d :=
  Char.ext (UInt32.toNat.inj h)

theorem charToNat_ofNat {n : Nat} (h : n.isValidChar) : (Char.ofNat n).toNat = n := by
  simp [Char.ofNat, h, Char.ofNatAux, Char.toNat, UInt32.toNat]

theorem charToNat_ofNat_small {n : Nat} (h : n < 55296) : (Char.ofNat n).toNat = n :=
  charToNat_ofNat (Or.inl h)

theorem charValid (c : Char) : c.toNat < 55296 ∨ (57343 < c.toNat ∧ c.toNat < 1114112) :=
  c.valid

theorem isDigit_iff_toNat {c : Char} : c.isDigit = true ↔ 48 ≤ c.toNat ∧ c.toNat ≤ 57 := by
  constructor
  · intro h
    simp [Char.isDigit, Char.le_def, UInt32.le_def, BitVec.le_def] at h
    simpa [Char.toNat, UInt32.toNat] using h
  · intro h
    simp [Char.isDigit, Char.le_def, UInt32.le_def, BitVec.le_def]
    simpa [Char.toNat, UInt32.toNat] using h

theorem decDigit_toNat {d : Nat} (h : d < 10) : (decDigit d).toNat = 48 + d :=
  charToNat_ofNat_small (by omega)

theorem decDigit_isDigit {d : Nat} (h : d < 10) : (decDigit d).isDigit = true := by
  rw [isDigit_iff_toNat, decDigit_toNat h]
  omega

theorem digitsVal_append_one (ds : Chars) (c : Char) :
    digitsVal (ds ++ [c]) = 10 * digitsVal ds + (c.toNat - 48) := by
  simp [digitsVal, List.foldl_append]

/-- The decimal renderer is sound: given enough fuel, it yields a nonempty
all-digit run whose value is the rendered number. -/
theorem natCharsF_spec : ∀ fuel n, n < fuel →
    (∀ c ∈ natCharsF fuel n, c.isDigit = true) ∧ natCharsF fuel n ≠ [] ∧
      digitsVal (natCharsF fuel n) = n := by
  intro fuel
  induction fuel with
  | zero => omega
  | succ f ih =>
    intro n hn
    by_cases h10 : n < 10
    · refine ⟨?_, ?_, ?_⟩ <;> simp [natCharsF, h10, digitsVal, decDigit_isDigit, decDigit_toNat]
    · have hrec := ih (n / 10) (by omega)
      refine ⟨?_, ?_, ?_⟩
      · intro c hc
        simp only [natCharsF, if_neg h10, List.mem_append, List.mem_singleton] at hc
        rcases hc with hc | hc
        · exact hrec.1 c hc
        · rw [hc]; exact decDigit_isDigit (by omega)
      · simp [natCharsF, h10]
      · simp only [natCharsF, if_neg h10, digitsVal_append_one, hrec.2.2,
          decDigit_toNat (Nat.mod_lt n (by omega))]
        omega

theorem natChars_spec (n : Nat) :
    (∀ c ∈ natChars n, c.isDigit = true) ∧ natChars n ≠ [] ∧ digitsVal (natChars n) = n :=
  natCharsF_spec (n + 1) n (by omega)

/-- A remainder that cannot extend a digit run: empty or not digit-headed.
Every separator and close bracket the serializer emits qualifies. -/
def numBoundary : Chars → Bool
  | [] => true
  | c :: _ => !c.isDigit

theorem digitSpan_stop {rest : Chars} (h : numBoundary rest = true) :
    digitSpan rest = ([], rest) := by
  match rest with
  | [] => rfl
  | c :: t =>
    simp only [numBoundary, Bool.not_eq_true'] at h
    simp [digitSpan, h]

theorem digitSpan_run {ds rest : Chars} (hds : ∀ c ∈ ds, c.isDigit = true)
    (hrest : numBoundary rest = true) : digitSpan (ds ++ rest) = (ds, rest) := by
  induction ds with
  | nil => simpa using digitSpan_stop hrest
  | cons c t ih =>
    have hc : c.isDigit = true := hds c (by simp)
    have ht := ih (fun x hx => hds x (by simp [hx]))
    simp [digitSpan, hc, ht]

theorem hexVal_hexDigit {d : Nat} (h : d < 16) : hexVal (hexDigit d) = some d := by
  interval_cases d <;> decide

theorem hexQuad_hex4 {n : Nat} (h : n < 65536) :
    hexQuad (hexDigit (n / 4096 % 16)) (hexDigit (n / 256 % 16))
      (hexDigit (n / 16 % 16)) (hexDigit (n % 16)) = some n := by
  have h1 := hexVal_hexDigit (show n / 4096 % 16 < 16 by omega)
  have h2 := hexVal_hexDigit (show n / 256 % 16 < 16 by omega)
  have h3 := hexVal_hexDigit (show n / 16 % 16 < 16 by omega)
  have h4 := hexVal_hexDigit (show n % 16 < 16 by omega)
  simp only [hexQuad, h1, h2, h3, h4, Option.some.injEq]
  omega

theorem readHex4_hex4 {n : Nat} (h : n < 65536) (t : Chars) :
    readHex4 (hex4 n ++ t) = some (n, t) := by
  simp [hex4, readHex4, hexQuad_hex4 h]

theorem readStringF_cons (fuel : Nat) (c0 : Char) (t : Chars) :
    readStringF (fuel + 1) (c0 :: t) =
      if c0 = '"' then some ([], t)
      else
        match readOne c0 t with
        | some (ch, rest) => consStr ch (readStringF fuel rest)
        | none => none := rfl

theorem readOne_escU (t1 : Chars) :
    readOne '\\' ('u' :: t1) =
      match readHex4 t1 with
      | none => none
      | some (n, t2) =>
        if isHighSur n then
          match readLowSur t2 with
          | none => none
          | some (m, t3) => some (Char.ofNat (combineSur n m), t3)
        else if isLowSur n then none
        else some (Char.ofNat n, t2) := rfl

theorem rsfQuote (fuel : Nat) (u : Chars) :
    readStringF (fuel + 1) (jescape '"' ++ u) = consStr '"' (readStringF fuel u) := by
  simp [jescape, readStringF, readOne, escCharOf]

theorem rsfBackslash (fuel : Nat) (u : Chars) :
    readStringF (fuel + 1) (jescape '\\' ++ u) = consStr '\\' (readStringF fuel u) := by
  simp [jescape, readStringF, readOne, escCharOf]

theorem rsfBs (fuel : Nat) (u : Chars) (k : Nat)
    (hk : k = 8 ∨ k = 9 ∨ k = 10 ∨ k = 12 ∨ k = 13) :
    readStringF (fuel + 1) (jescape (Char.ofNat k) ++ u)
      = consStr (Char.ofNat k) (readStringF fuel u) := by
  rcases hk with rfl | rfl | rfl | rfl | rfl <;>
    simp [jescape, readStringF, readOne, escCharOf]

theorem readOne_u_val (t1 t2 : Chars) (n : Nat) (hr : readHex4 t1 = some (n, t2))
    (hhi : isHighSur n = false) (hlo : isLowSur n = false) :
    readOne '\\' ('u' :: t1) = some (Char.ofNat n, t2) := by
  rw [readOne_escU, hr]
  simp only [hhi, hlo, Bool.false_eq_true, if_false]

theorem readOne_u_sur (t1 t2 t3 : Chars) (n m : Nat) (hr : readHex4 t1 = some (n, t2))
    (hhi : isHighSur n = true) (hlow : readLowSur t2 = some (m, t3)) :
    readOne '\\' ('u' :: t1) = some (Char.ofNat (combineSur n m), t3) := by
  rw [readOne_escU, hr]
  simp only [hhi, if_true, hlow]

theorem rsfU (fuel : Nat) (c : Char) (u : Chars) (hv : c.toNat < 65536)
    (hhi : isHighSur c.toNat = false) (hlo : isLowSur c.toNat = false) :
    readStringF (fuel + 1) ('\\' :: 'u' :: (hex4 c.toNat ++ u))
      = consStr c (readStringF fuel u) := by
  rw [readStringF_cons, if_neg (show ¬('\\' : Char) = '"' by decide),
    readOne_u_val _ _ _ (readHex4_hex4 hv u) hhi hlo]
  simp only [Char.ofNat_toNat]

theorem rsfCtl (fuel : Nat) (c : Char) (u : Chars)
    (h1 : ¬c = '"') (h2 : ¬c = '\\') (h3 : ¬c = Char.ofNat 8) (h4 : ¬c = Char.ofNat 9)
    (h5 : ¬c = Char.ofNat 10) (h6 : ¬c = Char.ofNat 12) (h7 : ¬c = Char.ofNat 13)
    (hctl : c.toNat < 32) :
    readStringF (fuel + 1) (jescape c ++ u) = consStr c (readStringF fuel u) := by
  have hhi : isHighSur c.toNat = false := by simp [isHighSur]; omega
  have hlo : isLowSur c.toNat = false := by simp [isLowSur]; omega
  simp only [jescape, if_neg h1, if_neg h2, if_neg h3, if_neg h4, if_neg h5, if_neg h6,
    if_neg h7, if_pos hctl, List.cons_append]
  exact rsfU fuel c u (by omega) hhi hlo

theorem rsfAscii (fuel : Nat) (c : Char) (u : Chars)
    (h1 : ¬c = '"') (h2 : ¬c = '\\') (h3 : ¬c = Char.ofNat 8) (h4 : ¬c = Char.ofNat 9)
    (h5 : ¬c = Char.ofNat 10) (h6 : ¬c = Char.ofNat 12) (h7 : ¬c = Char.ofNat 13)
    (hctl : ¬c.toNat < 32) (hascii : c.toNat < 127) :
    readStringF (fuel + 1) (jescape c ++ u) = consStr c (readStringF fuel u) := by
  simp only [jescape, if_neg h1, if_neg h2, if_neg h3, if_neg h4, if_neg h5, if_neg h6,
    if_neg h7, if_neg hctl, if_pos hascii, List.cons_append, List.nil_append]
  simp [readStringF, readOne, if_neg h1, if_neg h2, if_neg hctl]

theorem rsfBmp (fuel : Nat) (c : Char) (u : Chars)
    (h1 : ¬c = '"') (h2 : ¬c = '\\') (h3 : ¬c = Char.ofNat 8) (h4 : ¬c = Char.ofNat 9)
    (h5 : ¬c = Char.ofNat 10) (h6 : ¬c = Char.ofNat 12) (h7 : ¬c = Char.ofNat 13)
    (hctl : ¬c.toNat < 32) (hascii : ¬c.toNat < 127) (hbmp : c.toNat < 65536) :
    readStringF (fuel + 1) (jescape c ++ u) = consStr c (readStringF fuel u) := by
  have hval := charValid c
  have hhi : isHighSur c.toNat = false := by simp [isHighSur]; omega
  have hlo : isLowSur c.toNat = false := by simp [isLowSur]; omega
  simp only [jescape, if_neg h1, if_neg h2, if_neg h3, if_neg h4, if_neg h5, if_neg h6,
    if_neg h7, if_neg hctl, if_neg hascii, if_pos hbmp, List.cons_append]
  exact rsfU fuel c u hbmp hhi hlo

theorem rsfAstral (fuel : Nat) (c : Char) (u : Chars)
    (h1 : ¬c = '"') (h2 : ¬c = '\\') (h3 : ¬c = Char.ofNat 8) (h4 : ¬c = Char.ofNat 9)
    (h5 : ¬c = Char.ofNat 10) (h6 : ¬c = Char.ofNat 12) (h7 : ¬c = Char.ofNat 13)
    (hctl : ¬c.toNat < 32) (hascii : ¬c.toNat < 127) (hbmp : ¬c.toNat < 65536) :
    readStringF (fuel + 1) (jescape c ++ u) = consStr c (readStringF fuel u) := by
  have hval := charValid c
  simp only [jescape, if_neg h1, if_neg h2, if_neg h3, if_neg h4, if_neg h5, if_neg h6,
    if_neg h7, if_neg hctl, if_neg hascii, if_neg hbmp, List.cons_append,
    List.append_assoc]
  generalize hH : 55296 + (c.toNat - 65536) / 1024 = hi
  generalize hL : 56320 + (c.toNat - 65536) % 1024 = lo
  have hhi : isHighSur hi = true := by simp [isHighSur]; omega
  have hlo2 : isLowSur lo = true := by simp [isLowSur]; omega
  have hlow : readLowSur ('\\' :: 'u' :: (hex4 lo ++ u)) = some (lo, u) := by
    simp [readLowSur, readHex4_hex4 (show lo < 65536 by omega), hlo2]
  have harith : combineSur hi lo = c.toNat := by
    simp only [combineSur]
    omega
  rw [readStringF_cons, if_neg (show ¬('\\' : Char) = '"' by decide),
    readOne_u_sur _ _ _ _ _ (readHex4_hex4 (show hi < 65536 by omega) _) hhi hlow,
    harith, Char.ofNat_toNat]

/-- Reading one escaped character undoes `jescape`, for every `Char`. -/
theorem readStringF_step (fuel : Nat) (c : Char) (u : Chars) :
    readStringF (fuel + 1) (jescape c ++ u) = consStr c (readStringF fuel u) := by
  by_cases h1 : c = '"'
  · exact h1 ▸ rsfQuote fuel u
  by_cases h2 : c = '\\'
  · exact h2 ▸ rsfBackslash fuel u
  by_cases h3 : c = Char.ofNat 8
  · exact h3 ▸ rsfBs fuel u 8 (by omega)
  by_cases h4 : c = Char.ofNat 9
  · exact h4 ▸ rsfBs fuel u 9 (by omega)
  by_cases h5 : c = Char.ofNat 10
  · exact h5 ▸ rsfBs fuel u 10 (by omega)
  by_cases h6 : c = Char.ofNat 12
  · exact h6 ▸ rsfBs fuel u 12 (by omega)
  by_cases h7 : c = Char.ofNat 13
  · exact h7 ▸ rsfBs fuel u 13 (by omega)
  by_cases hctl : c.toNat < 32
  · exact rsfCtl fuel c u h1 h2 h3 h4 h5 h6 h7 hctl
  by_cases hascii : c.toNat < 127
  · exact rsfAscii fuel c u h1 h2 h3 h4 h5 h6 h7 hctl hascii
  by_cases hbmp : c.toNat < 65536
  · exact rsfBmp fuel c u h1 h2 h3 h4 h5 h6 h7 hctl hascii hbmp
  · exact rsfAstral fuel c u h1 h2 h3 h4 h5 h6 h7 hctl hascii hbmp

/-- Reading an escaped run stops exactly at the closing quote, with any fuel
past the run's character count. -/
theorem readStringF_jescapeAll : ∀ (s : Chars) (fuel : Nat) (t : Chars),
    s.length + 1 ≤ fuel →
    readStringF fuel (jescapeAll s ++ '"' :: t) = some (s, t) := by
  intro s
  induction s with
  | nil =>
    intro fuel t h
    match fuel, h with
    | f + 1, _ => simp [jescapeAll, readStringF]
  | cons c cs ih =>
    intro fuel t h
    cases fuel with
    | zero => simp at h
    | succ f =>
      have h' : cs.length + 1 ≤ f := by
        simp only [List.length_cons] at h
        omega
      have harr : jescapeAll (c :: cs) ++ '"' :: t
          = jescape c ++ (jescapeAll cs ++ '"' :: t) := by
        simp [jescapeAll, List.append_assoc]
      rw [harr, readStringF_step, ih f t h']
      simp [consStr]

theorem jescape_length_pos (c : Char) : 1 ≤ (jescape c).length := by
  by_cases h1 : c = '"'
  · subst h1; decide
  by_cases h2 : c = '\\'
  · subst h2; decide
  by_cases h3 : c = Char.ofNat 8
  · subst h3; decide
  by_cases h4 : c = Char.ofNat 9
  · subst h4; decide
  by_cases h5 : c = Char.ofNat 10
  · subst h5; decide
  by_cases h6 : c = Char.ofNat 12
  · subst h6; decide
  by_cases h7 : c = Char.ofNat 13
  · subst h7; decide
  by_cases hctl : c.toNat < 32
  · simp [jescape, if_neg h1, if_neg h2, if_neg h3, if_neg h4, if_neg h5, if_neg h6,
      if_neg h7, if_pos hctl, hex4]
  by_cases hascii : c.toNat < 127
  · simp [jescape, if_neg h1, if_neg h2, if_neg h3, if_neg h4, if_neg h5, if_neg h6,
      if_neg h7, if_neg hctl, if_pos hascii]
  by_cases hbmp : c.toNat < 65536
  · simp [jescape, if_neg h1, if_neg h2, if_neg h3, if_neg h4, if_neg h5, if_neg h6,
      if_neg h7, if_neg hctl, if_neg hascii, if_pos hbmp, hex4]
  · simp [jescape, if_neg h1, if_neg h2, if_neg h3, if_neg h4, if_neg h5, if_neg h6,
      if_neg h7, if_neg hctl, if_neg hascii, if_neg hbmp, hex4]

theorem jescapeAll_length_ge (s : Chars) : s.length ≤ (jescapeAll s).length := by
  induction s with
  | nil => simp [jescapeAll]
  | cons c cs ih =>
    have := jescape_length_pos c
    simp only [jescapeAll, List.map_cons, List.flatten_cons, List.length_append,
      List.length_cons]
    have hcs : (jescapeAll cs).length = ((cs.map jescape).flatten).length := rfl
    omega

/-- The string codec round-trip at the `readString` entry point. -/
theorem readString_jescapeAll (s t : Chars) :
    readString (jescapeAll s ++ '"' :: t) = some (s, t) := by
  apply readStringF_jescapeAll
  have h1 := jescapeAll_length_ge s
  simp only [List.length_append, List.length_cons]
  omega

theorem dropWs_cons {c : Char} {t : Chars} (h : isJsonWs c = false) :
    dropWs (c :: t) = c :: t := by
  simp [dropWs, h]

theorem digit_not_ws {c : Char} (h : c.isDigit = true) : isJsonWs c = false := by
  simp only [isJsonWs, Bool.or_eq_false_iff, decide_eq_false_iff_not]
  refine ⟨⟨⟨?_, ?_⟩, ?_⟩, ?_⟩ <;> (intro hx; subst hx; exact absurd h (by decide))

theorem digit_not_starter {c : Char} (h : c.isDigit = true) :
    ¬(c = '"') ∧ ¬(c = '{') ∧ ¬(c = '[') ∧ ¬(c = 'n') ∧ ¬(c = 't') ∧ ¬(c = 'f')
      ∧ ¬(c = '-') ∧ ¬(c = ']') ∧ ¬(c = '}') ∧ ¬(c = ',') ∧ ¬(c = ':') := by
  refine ⟨?_, ?_, ?_, ?_, ?_, ?_, ?_, ?_, ?_, ?_, ?_⟩ <;>
    (intro hx; subst hx; exact absurd h (by decide))

/-- Every serialized value begins with a character that is neither whitespace
nor a closing bracket: the branch openers, a minus sign, or a digit. -/
theorem dumps_head (j : Json) :
    ∃ c t, dumps j = c :: t ∧ isJsonWs c = false ∧ ¬(c = ']') ∧ ¬(c = '}') := by
  cases j with
  | null => exact ⟨'n', _, rfl, by decide, by decide, by decide⟩
  | bool b =>
    cases b with
    | true => exact ⟨'t', chars "rue", rfl, by decide, by decide, by decide⟩
    | false => exact ⟨'f', chars "alse", rfl, by decide, by decide, by decide⟩
  | str s =>
    exact ⟨'"', jescapeAll s ++ ['"'], by simp [dumps, dumpStr], by decide, by decide,
      by decide⟩
  | arr xs =>
    exact ⟨'[', dumpsItems xs ++ [']'], by simp [dumps], by decide, by decide, by decide⟩
  | obj kvs =>
    exact ⟨'{', dumpsFields kvs ++ ['}'], by simp [dumps], by decide, by decide, by decide⟩
  | num i =>
    by_cases hneg : i < 0
    · refine ⟨'-', natChars i.natAbs, ?_, by decide, by decide, by decide⟩
      simp [dumps, intChars, hneg]
    · obtain ⟨hds, hne, _⟩ := natChars_spec i.toNat
      obtain ⟨c0, t0, h0⟩ : ∃ c0 t0, natChars i.toNat = c0 :: t0 := by
        cases hX : natChars i.toNat with
        | nil => exact absurd hX hne
        | cons a b => exact ⟨a, b, rfl⟩
      have hd : c0.isDigit = true := hds c0 (by simp [h0])
      refine ⟨c0, t0, ?_, digit_not_ws hd, (digit_not_starter hd).2.2.2.2.2.2.2.1,
        (digit_not_starter hd).2.2.2.2.2.2.2.2.1⟩
      simp [dumps, intChars, hneg, h0]

theorem dropWs_dumps (j : Json) (r : Chars) : dropWs (dumps j ++ r) = dumps j ++ r := by
  obtain ⟨c, t, hj, hws, _, _⟩ := dumps_head j
  rw [hj, List.cons_append, dropWs_cons hws]

theorem dumps_ne_nil (j : Json) : dumps j ≠ [] := by
  obtain ⟨c, t, hj, _, _, _⟩ := dumps_head j
  simp [hj]

theorem jstepVal_null (p : JStep) (rest : Chars) :
    jstepVal p ('n' :: 'u' :: 'l' :: 'l' :: rest) = some (Json.null, rest) := rfl

theorem jstepVal_true (p : JStep) (rest : Chars) :
    jstepVal p ('t' :: 'r' :: 'u' :: 'e' :: rest) = some (Json.bool true, rest) := rfl

theorem jstepVal_false (p : JStep) (rest : Chars) :
    jstepVal p ('f' :: 'a' :: 'l' :: 's' :: 'e' :: rest) = some (Json.bool false, rest) := rfl

theorem jstepVal_quote (p : JStep) (t : Chars) :
    jstepVal p ('"' :: t) =
      match readString t with
      | some (cs, r) => some (Json.str cs, r)
      | none => none := rfl

theorem jstepVal_lbrace (p : JStep) (t : Chars) :
    jstepVal p ('{' :: t) =
      match dropWs t with
      | [] => none
      | c2 :: t2 =>
        if c2 = '}' then some (Json.obj JFields.nil, t2)
        else
          match p.pFields (c2 :: t2) with
          | some (fs, r) => some (Json.obj (dictOfPairs fs), r)
          | none => none := rfl

theorem jstepVal_lbrack (p : JStep) (t : Chars) :
    jstepVal p ('[' :: t) =
      match dropWs t with
      | [] => none
      | c2 :: t2 =>
        if c2 = ']' then some (Json.arr JItems.nil, t2)
        else
          match p.pItems (c2 :: t2) with
          | some (xs, r) => some (Json.arr xs, r)
          | none => none := rfl

theorem jstepVal_minus (p : JStep) (t : Chars) :
    jstepVal p ('-' :: t) =
      match digitSpan t with
      | ([], _) => none
      | (ds, r) => some (Json.num (-(digitsVal ds : Int)), r) := rfl

theorem jstepVal_digit (p : JStep) (c : Char) (t : Chars) (h : c.isDigit = true) :
    jstepVal p (c :: t) =
      match digitSpan t with
      | (ds, r) => some (Json.num (digitsVal (c :: ds) : Int), r) := by
  obtain ⟨hq, hbc, hbk, hn, ht, hf, hm, _, _, _, _⟩ := digit_not_starter h
  rw [jstepVal.eq_def]
  simp only [if_neg hq, if_neg hbc, if_neg hbk, if_neg hn, if_neg ht, if_neg hf,
    if_neg hm, if_pos h]

/-- Parsing a serialized integer recovers it, whenever the remainder cannot
extend the digit run. -/
theorem jstepVal_num (p : JStep) (i : Int) (rest : Chars) (hb : numBoundary rest = true) :
    jstepVal p (intChars i ++ rest) = some (Json.num i, rest) := by
  by_cases hneg : i < 0
  · obtain ⟨hds, hne, hval⟩ := natChars_spec i.natAbs
    obtain ⟨c0, t0, h0⟩ : ∃ c0 t0, natChars i.natAbs = c0 :: t0 := by
      cases hX : natChars i.natAbs with
      | nil => exact absurd hX hne
      | cons a b => exact ⟨a, b, rfl⟩
    have harg : intChars i ++ rest = '-' :: (natChars i.natAbs ++ rest) := by
      simp [intChars, hneg]
    rw [harg, jstepVal_minus, digitSpan_run hds hb, h0]
    have hval2 : digitsVal (c0 :: t0) = i.natAbs := h0 ▸ hval
    simp only [hval2]
    have : -((i.natAbs : Nat) : Int) = i := by omega
    rw [this]
  · obtain ⟨hds, hne, hval⟩ := natChars_spec i.toNat
    obtain ⟨c0, t0, h0⟩ : ∃ c0 t0, natChars i.toNat = c0 :: t0 := by
      cases hX : natChars i.toNat with
      | nil => exact absurd hX hne
      | cons a b => exact ⟨a, b, rfl⟩
    have hd0 : c0.isDigit = true := hds c0 (by simp [h0])
    have hds0 : ∀ c ∈ t0, c.isDigit = true := fun c hc => hds c (by simp [h0, hc])
    have harg : intChars i ++ rest = c0 :: (t0 ++ rest) := by
      simp [intChars, hneg, h0]
    rw [harg, jstepVal_digit p c0 (t0 ++ rest) hd0, digitSpan_run hds0 hb]
    have hval2 : digitsVal (c0 :: t0) = i.toNat := h0 ▸ hval
    simp only [hval2]
    have : ((i.toNat : Nat) : Int) = i := by omega
    rw [this]

/-- Concatenation of member lists. -/
def jappend : JFields → JFields → JFields
  | JFields.nil, b => b
  | JFields.cons k v tl, b => JFields.cons k v (jappend tl b)

theorem jappend_nil_right : ∀ (a : JFields), jappend a JFields.nil = a
  | JFields.nil => rfl
  | JFields.cons k v tl => by simp [jappend, jappend_nil_right tl]

theorem jappend_assoc : ∀ (a : JFields) (b c : JFields),
    jappend (jappend a b) c = jappend a (jappend b c)
  | JFields.nil, _, _ => rfl
  | JFields.cons k v tl, b, c => by simp [jappend, jappend_assoc tl b c]

theorem hasKey_jappend : ∀ (a : JFields) (b : JFields) (key : Chars),
    hasKey (jappend a b) key = (hasKey a key || hasKey b key)
  | JFields.nil, b, key => by simp [jappend, hasKey]
  | JFields.cons k v tl, b, key => by
    by_cases h : k = key <;> simp [jappend, hasKey, h, hasKey_jappend tl b key]

theorem dictUpdate_fresh : ∀ {acc : JFields} {k : Chars} (v : Json),
    hasKey acc k = false →
    dictUpdate acc k v = jappend acc (JFields.cons k v JFields.nil)
  | JFields.nil, _, _, _ => rfl
  | JFields.cons k2 w tl, k, v, h => by
    simp only [hasKey, Bool.or_eq_false_iff, decide_eq_false_iff_not] at h
    simp [dictUpdate, h.1, jappend, dictUpdate_fresh v h.2]

/-- Unique keys in a member list, position-wise. -/
def keysNodup : JFields → Bool
  | JFields.nil => true
  | JFields.cons k _ tl => !hasKey tl k && keysNodup tl

theorem dictOfPairsAux_fresh : ∀ (fs acc : JFields), keysNodup fs = true →
    (∀ key, hasKey fs key = true → hasKey acc key = false) →
    dictOfPairsAux acc fs = jappend acc fs
  | JFields.nil, acc, _, _ => by simp [dictOfPairsAux, jappend_nil_right]
  | JFields.cons k v tl, acc, hnd, hfresh => by
    simp only [keysNodup, Bool.and_eq_true, Bool.not_eq_true'] at hnd
    have hk : hasKey acc k = false := hfresh k (by simp [hasKey])
    have hstep : dictOfPairsAux acc (JFields.cons k v tl)
        = dictOfPairsAux (dictUpdate acc k v) tl := rfl
    rw [hstep, dictUpdate_fresh v hk]
    rw [dictOfPairsAux_fresh tl (jappend acc (JFields.cons k v JFields.nil)) hnd.2 ?fresh2]
    · rw [jappend_assoc]
      rfl
    case fresh2 =>
      intro key hkey
      rw [hasKey_jappend]
      have h1 : hasKey acc key = false := hfresh key (by simp [hasKey, hkey])
      have h2 : ¬(k = key) := by
        intro hx
        subst hx
        rw [hnd.1] at hkey
        exact Bool.false_ne_true hkey
      simp [h1, hasKey, h2]

/-- On a member list with unique keys, `dict(pairs)` is the identity. -/
theorem dictOfPairs_nodup {fs : JFields} (h : keysNodup fs = true) :
    dictOfPairs fs = fs := by
  rw [dictOfPairs, dictOfPairsAux_fresh fs JFields.nil h (fun key _ => by simp [hasKey])]
  rfl

mutual
/-- Well-formed values: every object node carries unique keys, as every
Python `dict` does by construction.  A value that ever crossed `json.dumps`
from Python satisfies this. -/
def jsonWf : Json → Bool
  | Json.null => true
  | Json.bool _ => true
  | Json.num _ => true
  | Json.str _ => true
  | Json.arr xs => itemsWf xs
  | Json.obj kvs => keysNodup kvs && fieldsWf kvs

/-- Well-formedness of every array element. -/
def itemsWf : JItems → Bool
  | JItems.nil => true
  | JItems.cons x tl => jsonWf x && itemsWf tl

/-- Well-formedness of every member value. -/
def fieldsWf : JFields → Bool
  | JFields.nil => true
  | JFields.cons _ v tl => jsonWf v && fieldsWf tl
end

theorem numBoundary_cons {c : Char} (t : Chars) (h : c.isDigit = false) :
    numBoundary (c :: t) = true := by
  simp [numBoundary, h]

theorem parseVal_succ (f : Nat) (s : Chars) : parseVal (f + 1) s = jstepVal (jparse f) s := rfl

theorem pItems_succ (f : Nat) (s : Chars) :
    (jparse (f + 1)).pItems s = jstepItems (jparse f) s := rfl

theorem pFields_succ (f : Nat) (s : Chars) :
    (jparse (f + 1)).pFields s = jstepFields (jparse f) s := rfl

theorem pVal_eq (f : Nat) (s : Chars) : (jparse f).pVal s = parseVal f s := rfl

theorem dumps_length_pos (j : Json) : 1 ≤ (dumps j).length := by
  obtain ⟨c, t, hj, _, _, _⟩ := dumps_head j
  simp [hj]

theorem dropWs_space (t : Chars) : dropWs (' ' :: t) = dropWs t := by
  simp [dropWs, isJsonWs]

theorem dumpsItems_head (x : Json) (xs : JItems) :
    ∃ T, dumpsItems (JItems.cons x xs) = dumps x ++ T := by
  cases xs with
  | nil => exact ⟨[], by simp [dumpsItems]⟩
  | cons y ys => exact ⟨',' :: ' ' :: dumpsItems (JItems.cons y ys), by simp [dumpsItems]⟩

theorem dumpsFields_head (k : Chars) (v : Json) (fs : JFields) :
    ∃ T, dumpsFields (JFields.cons k v fs) = '"' :: T := by
  cases fs with
  | nil =>
    exact ⟨jescapeAll k ++ '"' :: ':' :: ' ' :: dumps v, by simp [dumpsFields, dumpStr]⟩
  | cons k2 v2 tl =>
    exact ⟨jescapeAll k ++ '"' :: ':' :: ' '
        :: (dumps v ++ ',' :: ' ' :: dumpsFields (JFields.cons k2 v2 tl)),
      by simp [dumpsFields, dumpStr]⟩

mutual
/-- The codec round-trip for one serialized value: with enough fuel and a
remainder that cannot extend a digit run, parsing what `dumps` wrote yields
the value back.  Well-formedness provides the unique keys that make
`dict(pairs)` the identity. -/
theorem rt_val : ∀ (j : Json) (fuel : Nat) (rest : Chars),
    jsonWf j = true → (dumps j).length < fuel → numBoundary rest = true →
    parseVal fuel (dumps j ++ rest) = some (j, rest)
  | Json.null, fuel, rest, _, hf, _ => by
    cases fuel with
    | zero => exact absurd hf (Nat.not_lt_zero _)
    | succ f => exact jstepVal_null (jparse f) rest
  | Json.bool true, fuel, rest, _, hf, _ => by
    cases fuel with
    | zero => exact absurd hf (Nat.not_lt_zero _)
    | succ f => exact jstepVal_true (jparse f) rest
  | Json.bool false, fuel, rest, _, hf, _ => by
    cases fuel with
    | zero => exact absurd hf (Nat.not_lt_zero _)
    | succ f => exact jstepVal_false (jparse f) rest
  | Json.num n, fuel, rest, _, hf, hb => by
    cases fuel with
    | zero => exact absurd hf (Nat.not_lt_zero _)
    | succ f => exact jstepVal_num (jparse f) n rest hb
  | Json.str s, fuel, rest, _, hf, _ => by
    cases fuel with
    | zero => exact absurd hf (Nat.not_lt_zero _)
    | succ f =>
      have harg : dumps (Json.str s) ++ rest = '"' :: (jescapeAll s ++ '"' :: rest) := by
        simp [dumps, dumpStr]
      rw [harg, parseVal_succ, jstepVal_quote, readString_jescapeAll]
  | Json.arr JItems.nil, fuel, rest, _, hf, _ => by
    cases fuel with
    | zero => exact absurd hf (Nat.not_lt_zero _)
    | succ f =>
      have harg : dumps (Json.arr JItems.nil) ++ rest = '[' :: (']' :: rest) := by
        simp [dumps, dumpsItems]
      rw [harg, parseVal_succ, jstepVal_lbrack, dropWs_cons (by decide)]
      simp
  | Json.arr (JItems.cons x xs), fuel, rest, hwf, hf, _ => by
    cases fuel with
    | zero => exact absurd hf (Nat.not_lt_zero _)
    | succ f =>
      have hwf' : itemsWf (JItems.cons x xs) = true := by simpa [jsonWf] using hwf
      have hlen : (dumps (Json.arr (JItems.cons x xs))).length
          = (dumpsItems (JItems.cons x xs)).length + 2 := by simp [dumps]
      have hfi : (dumpsItems (JItems.cons x xs)).length + 1 < f := by omega
      obtain ⟨c, t0, hx, hws, hbr, _⟩ := dumps_head x
      obtain ⟨T, hT⟩ := dumpsItems_head x xs
      have harg : dumps (Json.arr (JItems.cons x xs)) ++ rest
          = '[' :: (dumpsItems (JItems.cons x xs) ++ ']' :: rest) := by simp [dumps]
      have hshape : dumpsItems (JItems.cons x xs) ++ ']' :: rest
          = c :: (t0 ++ (T ++ ']' :: rest)) := by rw [hT, hx]; simp
      rw [harg, parseVal_succ, jstepVal_lbrack, hshape, dropWs_cons hws]
      simp only [if_neg hbr]
      rw [← hshape, rt_items x xs f rest hwf' hfi]
  | Json.obj JFields.nil, fuel, rest, _, hf, _ => by
    cases fuel with
    | zero => exact absurd hf (Nat.not_lt_zero _)
    | succ f =>
      have harg : dumps (Json.obj JFields.nil) ++ rest = '{' :: ('}' :: rest) := by
        simp [dumps, dumpsFields]
      rw [harg, parseVal_succ, jstepVal_lbrace, dropWs_cons (by decide)]
      simp
  | Json.obj (JFields.cons k v fs), fuel, rest, hwf, hf, _ => by
    cases fuel with
    | zero => exact absurd hf (Nat.not_lt_zero _)
    | succ f =>
      have hnd : keysNodup (JFields.cons k v fs) = true := by
        have := hwf
        simp only [jsonWf, Bool.and_eq_true] at this
        exact this.1
      have hwf' : fieldsWf (JFields.cons k v fs) = true := by
        have := hwf
        simp only [jsonWf, Bool.and_eq_true] at this
        exact this.2
      have hlen : (dumps (Json.obj (JFields.cons k v fs))).length
          = (dumpsFields (JFields.cons k v fs)).length + 2 := by simp [dumps]
      have hff : (dumpsFields (JFields.cons k v fs)).length + 1 < f := by omega
      obtain ⟨T, hT⟩ := dumpsFields_head k v fs
      have harg : dumps (Json.obj (JFields.cons k v fs)) ++ rest
          = '{' :: (dumpsFields (JFields.cons k v fs) ++ '}' :: rest) := by simp [dumps]
      have hshape : dumpsFields (JFields.cons k v fs) ++ '}' :: rest
          = '"' :: (T ++ '}' :: rest) := by rw [hT]; simp
      rw [harg, parseVal_succ, jstepVal_lbrace, hshape, dropWs_cons (by decide)]
      simp only [if_neg (show ¬('"' : Char) = '}' by decide)]
      rw [← hshape, rt_fields k v fs f rest hwf' hff]
      simp only [dictOfPairs_nodup hnd]
  termination_by j _ _ _ _ _ => sizeOf j

/-- The round-trip for a nonempty serialized element list, consuming the
closing bracket. -/
theorem rt_items : ∀ (x : Json) (xs : JItems) (fuel : Nat) (rest : Chars),
    itemsWf (JItems.cons x xs) = true →
    (dumpsItems (JItems.cons x xs)).length + 1 < fuel →
    (jparse fuel).pItems (dumpsItems (JItems.cons x xs) ++ ']' :: rest)
      = some (JItems.cons x xs, rest)
  | x, JItems.nil, fuel, rest, hwf, hf => by
    cases fuel with
    | zero => exact absurd hf (Nat.not_lt_zero _)
    | succ f =>
      have hwx : jsonWf x = true := by simpa [itemsWf] using hwf
      have hitems : dumpsItems (JItems.cons x JItems.nil) = dumps x := by
        simp [dumpsItems]
      have hflen : (dumps x).length < f := by
        rw [hitems] at hf
        omega
      rw [hitems, pItems_succ]
      simp only [jstepItems]
      rw [pVal_eq, rt_val x f (']' :: rest) hwx hflen (numBoundary_cons _ (by decide))]
      simp [dropWs, isJsonWs]
  | x, JItems.cons y ys, fuel, rest, hwf, hf => by
    cases fuel with
    | zero => exact absurd hf (Nat.not_lt_zero _)
    | succ f =>
      have hwx : jsonWf x = true := by
        have := hwf
        simp only [itemsWf, Bool.and_eq_true] at this
        exact this.1
      have hwy : itemsWf (JItems.cons y ys) = true := by
        have := hwf
        simp only [itemsWf, Bool.and_eq_true] at this
        simp only [itemsWf, Bool.and_eq_true]
        exact this.2
      have hlen : dumpsItems (JItems.cons x (JItems.cons y ys))
          = dumps x ++ ',' :: ' ' :: dumpsItems (JItems.cons y ys) := by
        simp [dumpsItems]
      have hx1 := dumps_length_pos x
      have hlenx : (dumpsItems (JItems.cons x (JItems.cons y ys))).length
          = (dumps x).length + 2 + (dumpsItems (JItems.cons y ys)).length := by
        rw [hlen]; simp; omega
      have hfx : (dumps x).length < f := by omega
      have hfy : (dumpsItems (JItems.cons y ys)).length + 1 < f := by omega
      obtain ⟨cy, ty, hy, hwsy, _, _⟩ := dumps_head y
      obtain ⟨T, hT⟩ := dumpsItems_head y ys
      have harr : dumpsItems (JItems.cons x (JItems.cons y ys)) ++ ']' :: rest
          = dumps x ++ (',' :: ' ' :: (dumpsItems (JItems.cons y ys) ++ ']' :: rest)) := by
        rw [hlen]; simp
      have hshape : dumpsItems (JItems.cons y ys) ++ ']' :: rest
          = cy :: (ty ++ (T ++ ']' :: rest)) := by rw [hT, hy]; simp
      have hdrop : dropWs (dumpsItems (JItems.cons y ys) ++ ']' :: rest)
          = dumpsItems (JItems.cons y ys) ++ ']' :: rest := by
        rw [hshape]
        exact dropWs_cons hwsy
      have hrec := rt_items y ys f rest hwy hfy
      rw [harr, pItems_succ]
      simp only [jstepItems]
      rw [pVal_eq, rt_val x f _ hwx hfx (numBoundary_cons _ (by decide))]
      simp [dropWs, isJsonWs, hdrop, hrec]
  termination_by x xs _ _ _ _ => sizeOf x + sizeOf xs

/-- The round-trip for a nonempty serialized member list, consuming the
closing brace. -/
theorem rt_fields : ∀ (k : Chars) (v : Json) (fs : JFields) (fuel : Nat) (rest : Chars),
    fieldsWf (JFields.cons k v fs) = true →
    (dumpsFields (JFields.cons k v fs)).length + 1 < fuel →
    (jparse fuel).pFields (dumpsFields (JFields.cons k v fs) ++ '}' :: rest)
      = some (JFields.cons k v fs, rest)
  | k, v, JFields.nil, fuel, rest, hwf, hf => by
    cases fuel with
    | zero => exact absurd hf (Nat.not_lt_zero _)
    | succ f =>
      have hwv : jsonWf v = true := by simpa [fieldsWf] using hwf
      have hfields : dumpsFields (JFields.cons k v JFields.nil)
          = dumpStr k ++ ':' :: ' ' :: dumps v := by simp [dumpsFields]
      have hflen : (dumps v).length < f := by
        rw [hfields] at hf
        simp [dumpStr] at hf
        omega
      have harg : dumpsFields (JFields.cons k v JFields.nil) ++ '}' :: rest
          = '"' :: (jescapeAll k ++ '"' :: (':' :: ' ' :: (dumps v ++ '}' :: rest))) := by
        rw [hfields]
        simp [dumpStr]
      have hval := rt_val v f ('}' :: rest) hwv hflen (numBoundary_cons _ (by decide))
      rw [harg, pFields_succ]
      simp only [jstepFields]
      simp [readString_jescapeAll, dropWs, isJsonWs, dropWs_dumps, pVal_eq, hval]
  | k, v, JFields.cons k2 v2 tl, fuel, rest, hwf, hf => by
    cases fuel with
    | zero => exact absurd hf (Nat.not_lt_zero _)
    | succ f =>
      have hwv : jsonWf v = true := by
        have := hwf
        simp only [fieldsWf, Bool.and_eq_true] at this
        exact this.1
      have hwtl : fieldsWf (JFields.cons k2 v2 tl) = true := by
        have := hwf
        simp only [fieldsWf, Bool.and_eq_true] at this
        simp only [fieldsWf, Bool.and_eq_true]
        exact this.2
      have hfields : dumpsFields (JFields.cons k v (JFields.cons k2 v2 tl))
          = dumpStr k ++ ':' :: ' ' :: dumps v
            ++ ',' :: ' ' :: dumpsFields (JFields.cons k2 v2 tl) := by
        simp [dumpsFields]
      have hv1 := dumps_length_pos v
      have hlenx : (dumpsFields (JFields.cons k v (JFields.cons k2 v2 tl))).length
          = (dumpStr k).length + 2 + (dumps v).length + 2
            + (dumpsFields (JFields.cons k2 v2 tl)).length := by
        rw [hfields]; simp; omega
      have hfv : (dumps v).length < f := by omega
      have hftl : (dumpsFields (JFields.cons k2 v2 tl)).length + 1 < f := by omega
      obtain ⟨T, hT⟩ := dumpsFields_head k2 v2 tl
      have harg : dumpsFields (JFields.cons k v (JFields.cons k2 v2 tl)) ++ '}' :: rest
          = '"' :: (jescapeAll k ++ '"' :: (':' :: ' ' :: (dumps v
              ++ ',' :: ' ' :: (dumpsFields (JFields.cons k2 v2 tl) ++ '}' :: rest)))) := by
        rw [hfields]
        simp [dumpStr]
      have hshape : dumpsFields (JFields.cons k2 v2 tl) ++ '}' :: rest
          = '"' :: (T ++ '}' :: rest) := by rw [hT]; simp
      have hdrop : dropWs (dumpsFields (JFields.cons k2 v2 tl) ++ '}' :: rest)
          = dumpsFields (JFields.cons k2 v2 tl) ++ '}' :: rest := by
        rw [hshape]
        exact dropWs_cons (by decide)
      have hval := rt_val v f (',' :: ' '
        :: (dumpsFields (JFields.cons k2 v2 tl) ++ '}' :: rest)) hwv hfv
        (numBoundary_cons _ (by decide))
      have hrec := rt_fields k2 v2 tl f rest hwtl hftl
      rw [harg, pFields_succ]
      simp only [jstepFields]
      simp [readString_jescapeAll, dropWs, isJsonWs, dropWs_dumps, pVal_eq, hval,
        hdrop, hrec]
  termination_by _ v fs _ _ _ _ => sizeOf v + sizeOf fs
end

/-- The codec round-trip at the line level: decoding an encoded well-formed
message yields the message back. -/
theorem jsonLoads_encodeLine (j : Json) (h : jsonWf j = true) :
    jsonLoads (encodeLine j) = some j := by
  have hdrop : dropWs (dumps j ++ [Char.ofNat 10]) = dumps j ++ [Char.ofNat 10] :=
    dropWs_dumps j _
  have hrt := rt_val j ((dumps j ++ [Char.ofNat 10]).length + 1) [Char.ofNat 10] h
    (by simp; omega) (numBoundary_cons _ (by decide))
  simp only [jsonLoads, encodeLine, hdrop, hrt]
  simp [dropWs, isJsonWs]

/-- The request message of the wire format in section 6 of the design:
`{"jsonrpc": "2.0", "method": m, "params": p, "id": i}`. -/
def requestMsg (m : Chars) (p : JFields) (i : Int) : Json :=
  jobj [(chars "jsonrpc", jstr "2.0"), (chars "method", Json.str m),
        (chars "params", Json.obj p), (chars "id", Json.num i)]

/-- Tool implementations that return `None`, for concrete instantiations. -/
def trivialTools : ToolImpls :=
  { get_current_weather := fun _ _ => Except.ok Json.null,
    get_forecast := fun _ _ _ => Except.ok Json.null,
    get_alerts := fun _ => Except.ok Json.null,
    get_air_quality := fun _ => Except.ok Json.null }

/-- Tool implementations that all raise `e`, modelling a failing collaborator. -/
def raisingTools (e : PyErr) : ToolImpls :=
  { get_current_weather := fun _ _ => Except.error e,
    get_forecast := fun _ _ _ => Except.error e,
    get_alerts := fun _ => Except.error e,
    get_air_quality := fun _ => Except.error e }

/-- Whether a value is a JSON object (a Python `dict`). -/
def isObjJ : Json → Bool
  | Json.obj _ => true
  | _ => false

/-- A top-level member of a response envelope. -/
def responseField (resp : Json) (key : Chars) : Option Json :=
  match resp with
  | Json.obj fs => lookupKvs fs key
  | _ => none

/-- The `error.code` of a response envelope, when present. -/
def errorCodeOf (resp : Json) : Option Json :=
  match responseField resp (chars "error") with
  | some (Json.obj efs) => lookupKvs efs (chars "code")
  | _ => none

theorem dispatch_nonObj (htc : Json → Json → Except PyErr Json) (tools : JItems)
    (j : Json) (h : isObjJ j = false) :
    dispatchRequest htc tools j = Except.error ⟨pyAttrGetMsg j⟩ := by
  cases j with
  | obj kvs => simp [isObjJ] at h
  | null => rfl
  | bool b => rfl
  | num n => rfl
  | str s => rfl
  | arr xs => rfl

theorem dispatch_unknown_method (htc : Json → Json → Except PyErr Json) (tools : JItems)
    (kvs : JFields) (m : Json)
    (hm : lookupKvs kvs (chars "method") = some m)
    (h1 : pyEqStr m (chars "tools/call") = false)
    (h2 : pyEqStr m (chars "tools/list") = false) :
    dispatchRequest htc tools (Json.obj kvs) =
      Except.ok (successEnvelope
        (jobj [(chars "error", Json.str (chars "Unknown method: " ++ pyStrOf m))])
        ((lookupKvs kvs (chars "id")).getD (Json.num 1))) := by
  simp [dispatchRequest, pyGetD, hm, h1, h2, Bind.bind, Except.bind]

theorem dispatch_tools_list (htc : Json → Json → Except PyErr Json) (tools : JItems)
    (kvs : JFields)
    (hm : lookupKvs kvs (chars "method") = some (jstr "tools/list")) :
    dispatchRequest htc tools (Json.obj kvs) =
      Except.ok (successEnvelope (jobj [(chars "tools", Json.arr tools)])
        ((lookupKvs kvs (chars "id")).getD (Json.num 1))) := by
  have h1 : pyEqStr (jstr "tools/list") (chars "tools/call") = false := by decide
  have h2 : pyEqStr (jstr "tools/list") (chars "tools/list") = true := by decide
  simp [dispatchRequest, pyGetD, hm, h1, h2, Bind.bind, Except.bind]

theorem dispatch_tools_call (htc : Json → Json → Except PyErr Json) (tools : JItems)
    (kvs pkvs : JFields)
    (hm : lookupKvs kvs (chars "method") = some (jstr "tools/call"))
    (hp : lookupKvs kvs (chars "params") = some (Json.obj pkvs)) :
    dispatchRequest htc tools (Json.obj kvs) =
      match htc ((lookupKvs pkvs (chars "name")).getD Json.null)
          ((lookupKvs pkvs (chars "arguments")).getD (jobj [])) with
      | Except.ok r =>
        Except.ok (successEnvelope r ((lookupKvs kvs (chars "id")).getD (Json.num 1)))
      | Except.error e => Except.error e := by
  have h1 : pyEqStr (jstr "tools/call") (chars "tools/call") = true := by decide
  cases hres : htc ((lookupKvs pkvs (chars "name")).getD Json.null)
      ((lookupKvs pkvs (chars "arguments")).getD (jobj [])) with
  | ok r => simp [dispatchRequest, pyGetD, hm, hp, h1, Bind.bind, Except.bind, hres]
  | error e => simp [dispatchRequest, pyGetD, hm, hp, h1, Bind.bind, Except.bind, hres]

theorem dispatch_ok_id (htc : Json → Json → Except PyErr Json) (tools : JItems)
    (kvs : JFields) (resp : Json)
    (h : dispatchRequest htc tools (Json.obj kvs) = Except.ok resp) :
    responseField resp (chars "id")
      = some ((lookupKvs kvs (chars "id")).getD (Json.num 1)) := by
  simp only [dispatchRequest, pyGetD, Bind.bind, Except.bind] at h
  repeat' split at h
  all_goals
    first
      | (simp only [Except.ok.injEq] at h; subst h; rfl)
      | simp at h

theorem processLine_parseErr (htc : Json → Json → Except PyErr Json) (tools : JItems)
    (line : Chars) (h : jsonLoads line = none) :
    processLine htc tools line = encodeLine parseErrorResponse := by
  simp [processLine, h]

theorem processLine_ok (htc : Json → Json → Except PyErr Json) (tools : JItems)
    (line : Chars) (req resp : Json) (h1 : jsonLoads line = some req)
    (h2 : dispatchRequest htc tools req = Except.ok resp) :
    processLine htc tools line = encodeLine resp := by
  simp [processLine, h1, h2]

theorem processLine_raise (htc : Json → Json → Except PyErr Json) (tools : JItems)
    (line : Chars) (req : Json) (e : PyErr) (h1 : jsonLoads line = some req)
    (h2 : dispatchRequest htc tools req = Except.error e) :
    processLine htc tools line = encodeLine (internalErrorResponse e.msg) := by
  simp [processLine, h1, h2]

theorem wmsHTC_unknown (t : ToolImpls) (nm args : Json)
    (h1 : pyEqStr nm (chars "get_current_weather") = false)
    (h2 : pyEqStr nm (chars "get_forecast") = false)
    (h3 : pyEqStr nm (chars "get_alerts") = false)
    (h4 : pyEqStr nm (chars "get_air_quality") = false) :
    wmsHandleToolCall t nm args
      = Except.ok (jobj [(chars "error",
          Json.str (chars "Unknown tool: " ++ pyStrOf nm))]) := by
  simp [wmsHandleToolCall, h1, h2, h3, h4, pyCatch]

theorem mockHTC_unknown (wu : Option Chars) (t : ToolImpls) (nm : Json) (akvs : JFields)
    (h1 : pyEqStr nm (chars "get_current_weather") = false)
    (h2 : pyEqStr nm (chars "get_forecast") = false)
    (h3 : pyEqStr nm (chars "get_alerts") = false)
    (h4 : pyEqStr nm (chars "get_air_quality") = false) :
    mockHandleToolCall wu t nm (Json.obj akvs)
      = Except.ok (jobj [(chars "error",
          Json.str (chars "Unknown tool: " ++ pyStrOf nm))]) := by
  simp [mockHandleToolCall, pyGetD, h1, h2, h3, h4, pyCatch]

theorem mockHTC_raising (wu : Option Chars) (e : PyErr) (nm : Chars) (akvs : JFields)
    (hmem : nm ∈ registeredToolNames) :
    mockHandleToolCall wu (raisingTools e) (Json.str nm) (Json.obj akvs)
      = Except.ok (jobj [(chars "error", Json.str e.msg)]) := by
  simp only [registeredToolNames, List.mem_cons, List.mem_singleton,
    List.not_mem_nil, or_false] at hmem
  rcases hmem with rfl | rfl | rfl | rfl <;>
    simp [mockHandleToolCall, pyGetD, raisingTools, pyCatch, pyEqStr, Bind.bind,
      Except.bind]

theorem wmsHTC_raising (e : PyErr) (nm : Chars) (akvs : JFields)
    (hmem : nm ∈ registeredToolNames) :
    wmsHandleToolCall (raisingTools e) (Json.str nm) (Json.obj akvs)
      = Except.ok (jobj [(chars "error", Json.str e.msg)]) := by
  simp only [registeredToolNames, List.mem_cons, List.mem_singleton,
    List.not_mem_nil, or_false] at hmem
  rcases hmem with rfl | rfl | rfl | rfl <;>
    simp [wmsHandleToolCall, pyGetD, raisingTools, pyCatch, pyEqStr, Bind.bind,
      Except.bind]

theorem serverLoop_length (htc : Json → Json → Except PyErr Json) (tools : JItems) :
    ∀ stdinLines : List Chars, (serverLoop htc tools stdinLines).length = stdinLines.length
  | [] => rfl
  | line :: rest => by simp [serverLoop, serverLoop_length htc tools rest]

/-- C5: in every execution of either dispatcher loop, the number of response
lines written equals the number of request lines read — one response per
request, none without a request. -/
theorem claim_C5 :
    (∀ (wu : Option Chars) (t : ToolImpls) (stdinLines : List Chars),
      (mockServerLoop wu t stdinLines).length = stdinLines.length)
    ∧ ∀ (t : ToolImpls) (stdinLines : List Chars),
      (wmsServerLoop t stdinLines).length = stdinLines.length :=
  ⟨fun _ _ stdinLines => serverLoop_length _ _ stdinLines,
   fun _ stdinLines => serverLoop_length _ _ stdinLines⟩

/-- C4: every input line gets a response rather than a propagated exception —
the loop steps one response per line, a raising tool implementation is turned
into the domain payload `result = {"error": str(e)}` inside a successful
envelope, and a run over any whole input terminates with exit code 0. -/
theorem claim_C4 :
    (∀ (wu : Option Chars) (t : ToolImpls) (line : Chars) (rest : List Chars),
        mockServerLoop wu t (line :: rest)
          = mockProcessLine wu t line :: mockServerLoop wu t rest)
    ∧ (∀ (wu : Option Chars) (t : ToolImpls) (stdinLines : List Chars),
        (mockServerMain wu t stdinLines).2 = 0)
    ∧ (∀ (t : ToolImpls) (line : Chars) (rest : List Chars),
        wmsServerLoop t (line :: rest) = wmsProcessLine t line :: wmsServerLoop t rest)
    ∧ (∀ (t : ToolImpls) (stdinLines : List Chars), (wmsServerMain t stdinLines).2 = 0)
    ∧ (∀ (wu : Option Chars) (e : PyErr) (nm : Chars) (kvs pkvs akvs : JFields),
        nm ∈ registeredToolNames →
        lookupKvs kvs (chars "method") = some (jstr "tools/call") →
        lookupKvs kvs (chars "params") = some (Json.obj pkvs) →
        lookupKvs pkvs (chars "name") = some (Json.str nm) →
        lookupKvs pkvs (chars "arguments") = some (Json.obj akvs) →
        mockDispatch wu (raisingTools e) (Json.obj kvs)
          = Except.ok (successEnvelope (jobj [(chars "error", Json.str e.msg)])
              ((lookupKvs kvs (chars "id")).getD (Json.num 1))))
    ∧ ∀ (e : PyErr) (nm : Chars) (kvs pkvs akvs : JFields),
        nm ∈ registeredToolNames →
        lookupKvs kvs (chars "method") = some (jstr "tools/call") →
        lookupKvs kvs (chars "params") = some (Json.obj pkvs) →
        lookupKvs pkvs (chars "name") = some (Json.str nm) →
        lookupKvs pkvs (chars "arguments") = some (Json.obj akvs) →
        wmsDispatch (raisingTools e) (Json.obj kvs)
          = Except.ok (successEnvelope (jobj [(chars "error", Json.str e.msg)])
              ((lookupKvs kvs (chars "id")).getD (Json.num 1))) := by
  refine ⟨fun _ _ _ _ => rfl, fun _ _ _ => rfl, fun _ _ _ => rfl, fun _ _ => rfl,
    ?_, ?_⟩
  · intro wu e nm kvs pkvs akvs hmem hm hp hn ha
    have hd := dispatch_tools_call (mockHandleToolCall wu (raisingTools e))
      mockToolsJson kvs pkvs hm hp
    simp only [hn, ha, Option.getD_some] at hd
    rw [mockHTC_raising wu e nm akvs hmem] at hd
    exact hd
  · intro e nm kvs pkvs akvs hmem hm hp hn ha
    have hd := dispatch_tools_call (wmsHandleToolCall (raisingTools e))
      wmsToolsJson kvs pkvs hm hp
    simp only [hn, ha, Option.getD_some] at hd
    rw [wmsHTC_raising e nm akvs hmem] at hd
    exact hd

/-- Witness for C4 at a concrete raising tool call on both servers. -/
theorem claim_C4_witness :
    mockDispatch none (raisingTools ⟨chars "boom"⟩)
        (Json.obj (jfields [(chars "method", jstr "tools/call"),
          (chars "params", jobj [(chars "name", jstr "get_alerts"),
                                 (chars "arguments", jobj [])]),
          (chars "id", Json.num 7)]))
      = Except.ok (successEnvelope (jobj [(chars "error", Json.str (chars "boom"))])
          ((lookupKvs (jfields [(chars "method", jstr "tools/call"),
              (chars "params", jobj [(chars "name", jstr "get_alerts"),
                                     (chars "arguments", jobj [])]),
              (chars "id", Json.num 7)]) (chars "id")).getD (Json.num 1)))
    ∧ wmsDispatch (raisingTools ⟨chars "boom"⟩)
        (Json.obj (jfields [(chars "method", jstr "tools/call"),
          (chars "params", jobj [(chars "name", jstr "get_forecast"),
                                 (chars "arguments", jobj [])]),
          (chars "id", Json.num 8)]))
      = Except.ok (successEnvelope (jobj [(chars "error", Json.str (chars "boom"))])
          ((lookupKvs (jfields [(chars "method", jstr "tools/call"),
              (chars "params", jobj [(chars "name", jstr "get_forecast"),
                                     (chars "arguments", jobj [])]),
              (chars "id", Json.num 8)]) (chars "id")).getD (Json.num 1)))
    ∧ (mockServerMain none trivialTools [chars "x"]).2 = 0 :=
  ⟨claim_C4.2.2.2.2.1 none ⟨chars "boom"⟩ (chars "get_alerts") _ _ _ (by decide)
      rfl rfl rfl rfl,
   claim_C4.2.2.2.2.2 ⟨chars "boom"⟩ (chars "get_forecast") _ _ _ (by decide)
      rfl rfl rfl rfl,
   claim_C4.2.1 none trivialTools [chars "x"]⟩

/-- C2: an input line that is not valid JSON gets exactly one response, the
`-32700` parse-error envelope with `id = null`, and the loop goes on to
answer the remaining lines. -/
theorem claim_C2 (htc : Json → Json → Except PyErr Json) (tools : JItems)
    (line : Chars) (rest : List Chars) (h : jsonLoads line = none) :
    serverLoop htc tools (line :: rest)
        = encodeLine parseErrorResponse :: serverLoop htc tools rest
    ∧ errorCodeOf parseErrorResponse = some (Json.num (-32700))
    ∧ responseField parseErrorResponse (chars "id") = some Json.null := by
  refine ⟨?_, rfl, rfl⟩
  have hp := processLine_parseErr htc tools line h
  simp [serverLoop, hp]

/-- Witness for C2 on a concrete non-JSON line fed to the mock server. -/
theorem claim_C2_witness :
    serverLoop (mockHandleToolCall none trivialTools) mockToolsJson
        [chars "notjson", chars "42"]
      = encodeLine parseErrorResponse
        :: serverLoop (mockHandleToolCall none trivialTools) mockToolsJson [chars "42"]
    ∧ errorCodeOf parseErrorResponse = some (Json.num (-32700)) :=
  ⟨(claim_C2 (mockHandleToolCall none trivialTools) mockToolsJson (chars "notjson")
      [chars "42"] rfl).1,
   (claim_C2 (mockHandleToolCall none trivialTools) mockToolsJson (chars "notjson")
      [chars "42"] rfl).2.1⟩

/-- C6 counterexample: the line `42` is valid JSON, so it does not take the
parse-error path; because the decoded value is not an object, `.get` raises
and both servers answer with the `-32603` internal-error envelope, not the
`-32700` parse-error envelope the claim predicts. -/
theorem claim_C6_cex :
    jsonLoads (chars "42") = some (Json.num 42)
    ∧ mockProcessLine none trivialTools (chars "42")
        = encodeLine (internalErrorResponse (pyAttrGetMsg (Json.num 42)))
    ∧ wmsProcessLine trivialTools (chars "42")
        = encodeLine (internalErrorResponse (pyAttrGetMsg (Json.num 42)))
    ∧ errorCodeOf (internalErrorResponse (pyAttrGetMsg (Json.num 42)))
        = some (Json.num (-32603))
    ∧ mockProcessLine none trivialTools (chars "42") ≠ encodeLine parseErrorResponse := by
  refine ⟨rfl, rfl, rfl, rfl, ?_⟩
  intro h
  exact absurd (congrArg List.length h) (by decide)

/-- C6 amended: a line that is valid JSON but not a JSON object is outside the
request codec, and both servers answer it with the `-32603` internal-error
envelope (carrying the Python attribute-error message, `id = null`), not with
the `-32700` parse-error envelope. -/
theorem claim_C6 (htc : Json → Json → Except PyErr Json) (tools : JItems)
    (line : Chars) (j : Json) (hload : jsonLoads line = some j)
    (hobj : isObjJ j = false) :
    codecDecode line = none
    ∧ processLine htc tools line = encodeLine (internalErrorResponse (pyAttrGetMsg j))
    ∧ errorCodeOf (internalErrorResponse (pyAttrGetMsg j)) = some (Json.num (-32603))
    ∧ responseField (internalErrorResponse (pyAttrGetMsg j)) (chars "id")
        = some Json.null := by
  refine ⟨?_, ?_, rfl, rfl⟩
  · unfold codecDecode
    rw [hload]
    cases j <;> simp_all [isObjJ]
  · have hd : dispatchRequest htc tools j = Except.error ⟨pyAttrGetMsg j⟩ := by
      cases j <;> simp_all [isObjJ, dispatchRequest, pyGetD, Bind.bind, Except.bind]
    exact processLine_raise htc tools line j _ hload hd

/-- Witness for C6 on the concrete line `true` fed to the wms server. -/
theorem claim_C6_witness :
    codecDecode (chars "true") = none
    ∧ processLine (wmsHandleToolCall trivialTools) wmsToolsJson (chars "true")
        = encodeLine (internalErrorResponse (pyAttrGetMsg (Json.bool true)))
    ∧ errorCodeOf (internalErrorResponse (pyAttrGetMsg (Json.bool true)))
        = some (Json.num (-32603)) :=
  ⟨(claim_C6 (wmsHandleToolCall trivialTools) wmsToolsJson (chars "true")
      (Json.bool true) rfl rfl).1,
   (claim_C6 (wmsHandleToolCall trivialTools) wmsToolsJson (chars "true")
      (Json.bool true) rfl rfl).2.1,
   (claim_C6 (wmsHandleToolCall trivialTools) wmsToolsJson (chars "true")
      (Json.bool true) rfl rfl).2.2.1⟩

/-- C3 counterexample: the request `{"method": "tools/call", "params": 5,
"id": 9}` is decodable and carries `id = 9`, yet `params.get` raises before
the id is read, so the server answers with the internal-error envelope whose
`id` is `null`, not `9`. -/
theorem claim_C3_cex :
    jsonLoads (encodeLine (jobj [(chars "method", jstr "tools/call"),
        (chars "params", Json.num 5), (chars "id", Json.num 9)]))
      = some (jobj [(chars "method", jstr "tools/call"),
          (chars "params", Json.num 5), (chars "id", Json.num 9)])
    ∧ mockProcessLine none trivialTools
        (encodeLine (jobj [(chars "method", jstr "tools/call"),
          (chars "params", Json.num 5), (chars "id", Json.num 9)]))
        = encodeLine (internalErrorResponse (pyAttrGetMsg (Json.num 5)))
    ∧ responseField (internalErrorResponse (pyAttrGetMsg (Json.num 5))) (chars "id")
        = some Json.null
    ∧ Json.null ≠ Json.num 9 :=
  ⟨rfl, rfl, rfl, fun h => Json.noConfusion h⟩

/-- C3 amended: a response built by a successful dispatch echoes the request
id (default `1` when absent); the parse-error and internal-error envelopes
always carry `id = null`, even when the failing request had an id. -/
theorem claim_C3 :
    (∀ (htc : Json → Json → Except PyErr Json) (tools : JItems) (kvs : JFields)
        (rid resp : Json),
        lookupKvs kvs (chars "id") = some rid →
        dispatchRequest htc tools (Json.obj kvs) = Except.ok resp →
        responseField resp (chars "id") = some rid)
    ∧ (∀ (htc : Json → Json → Except PyErr Json) (tools : JItems) (line : Chars),
        jsonLoads line = none →
        processLine htc tools line = encodeLine parseErrorResponse
          ∧ responseField parseErrorResponse (chars "id") = some Json.null)
    ∧ ∀ (htc : Json → Json → Except PyErr Json) (tools : JItems) (line : Chars)
        (req : Json) (e : PyErr),
        jsonLoads line = some req →
        dispatchRequest htc tools req = Except.error e →
        processLine htc tools line = encodeLine (internalErrorResponse e.msg)
          ∧ responseField (internalErrorResponse e.msg) (chars "id")
              = some Json.null := by
  refine ⟨?_, ?_, ?_⟩
  · intro htc tools kvs rid resp hid hok
    have h := dispatch_ok_id htc tools kvs resp hok
    rw [hid] at h
    simpa using h
  · intro htc tools line h
    exact ⟨processLine_parseErr htc tools line h, rfl⟩
  · intro htc tools line req e hload hd
    exact ⟨processLine_raise htc tools line req e hload hd, rfl⟩

/-- Witness for C3: a concrete successful `tools/list` call echoes its id,
and the concrete failing call of the counterexample shape reports `null`. -/
theorem claim_C3_witness :
    responseField (successEnvelope (jobj [(chars "tools", Json.arr mockToolsJson)])
        ((lookupKvs (jfields [(chars "method", jstr "tools/list"),
            (chars "id", Json.num 9)]) (chars "id")).getD (Json.num 1)))
        (chars "id")
      = some (Json.num 9)
    ∧ processLine (mockHandleToolCall none trivialTools) mockToolsJson (chars "nope")
        = encodeLine parseErrorResponse :=
  ⟨claim_C3.1 (mockHandleToolCall none trivialTools) mockToolsJson
      (jfields [(chars "method", jstr "tools/list"), (chars "id", Json.num 9)])
      (Json.num 9) _ rfl
      (dispatch_tools_list (mockHandleToolCall none trivialTools) mockToolsJson
        (jfields [(chars "method", jstr "tools/list"), (chars "id", Json.num 9)]) rfl),
   (claim_C3.2.1 (mockHandleToolCall none trivialTools) mockToolsJson
      (chars "nope") rfl).1⟩

/-- C1 counterexample: in the mock server the `units` lookup on line 195 runs
before the `try`, so a `tools/call` whose `name` is unknown but whose
`arguments` is not a dict (`7` here) raises out of `handle_tool_call`: the
dispatch errors and the caller writes the transport-level `-32603` envelope
instead of a successful response with a domain error payload. -/
theorem claim_C1_cex :
    mockDispatch none trivialTools
        (jobj [(chars "method", jstr "tools/call"),
               (chars "params", jobj [(chars "name", jstr "bogus"),
                                      (chars "arguments", Json.num 7)]),
               (chars "id", Json.num 3)])
      = Except.error ⟨pyAttrGetMsg (Json.num 7)⟩
    ∧ mockProcessLine none trivialTools
        (encodeLine (jobj [(chars "method", jstr "tools/call"),
          (chars "params", jobj [(chars "name", jstr "bogus"),
                                 (chars "arguments", Json.num 7)]),
          (chars "id", Json.num 3)]))
        = encodeLine (internalErrorResponse (pyAttrGetMsg (Json.num 7)))
    ∧ responseField (internalErrorResponse (pyAttrGetMsg (Json.num 7)))
        (chars "result") = none
    ∧ errorCodeOf (internalErrorResponse (pyAttrGetMsg (Json.num 7)))
        = some (Json.num (-32603)) :=
  ⟨rfl, rfl, rfl, rfl⟩

/-- C1 amended: an unknown tool name is reported as the domain payload
`result = {"error": "Unknown tool: ..."}` inside a successful envelope in
the wms server unconditionally, and in the mock server whenever `arguments`
resolves to a dict; an unknown method is reported as
`result = {"error": "Unknown method: ..."}` in both servers; a success
envelope has a `result` member and no top-level `error` member. -/
theorem claim_C1 :
    (∀ (t : ToolImpls) (kvs pkvs : JFields) (nm : Json),
        lookupKvs kvs (chars "method") = some (jstr "tools/call") →
        lookupKvs kvs (chars "params") = some (Json.obj pkvs) →
        lookupKvs pkvs (chars "name") = some nm →
        pyEqStr nm (chars "get_current_weather") = false →
        pyEqStr nm (chars "get_forecast") = false →
        pyEqStr nm (chars "get_alerts") = false →
        pyEqStr nm (chars "get_air_quality") = false →
        wmsDispatch t (Json.obj kvs)
          = Except.ok (successEnvelope
              (jobj [(chars "error",
                Json.str (chars "Unknown tool: " ++ pyStrOf nm))])
              ((lookupKvs kvs (chars "id")).getD (Json.num 1))))
    ∧ (∀ (wu : Option Chars) (t : ToolImpls) (kvs pkvs akvs : JFields) (nm : Json),
        lookupKvs kvs (chars "method") = some (jstr "tools/call") →
        lookupKvs kvs (chars "params") = some (Json.obj pkvs) →
        lookupKvs pkvs (chars "name") = some nm →
        (lookupKvs pkvs (chars "arguments")).getD (jobj []) = Json.obj akvs →
        pyEqStr nm (chars "get_current_weather") = false →
        pyEqStr nm (chars "get_forecast") = false →
        pyEqStr nm (chars "get_alerts") = false →
        pyEqStr nm (chars "get_air_quality") = false →
        mockDispatch wu t (Json.obj kvs)
          = Except.ok (successEnvelope
              (jobj [(chars "error",
                Json.str (chars "Unknown tool: " ++ pyStrOf nm))])
              ((lookupKvs kvs (chars "id")).getD (Json.num 1))))
    ∧ (∀ (htc : Json → Json → Except PyErr Json) (tools : JItems)
        (kvs : JFields) (m : Json),
        lookupKvs kvs (chars "method") = some m →
        pyEqStr m (chars "tools/call") = false →
        pyEqStr m (chars "tools/list") = false →
        dispatchRequest htc tools (Json.obj kvs)
          = Except.ok (successEnvelope
              (jobj [(chars "error",
                Json.str (chars "Unknown method: " ++ pyStrOf m))])
              ((lookupKvs kvs (chars "id")).getD (Json.num 1))))
    ∧ ∀ (r i : Json),
        responseField (successEnvelope r i) (chars "result") = some r
        ∧ responseField (successEnvelope r i) (chars "error") = none := by
  refine ⟨?_, ?_, dispatch_unknown_method, fun r i => ⟨rfl, rfl⟩⟩
  · intro t kvs pkvs nm hm hp hn h1 h2 h3 h4
    have hd := dispatch_tools_call (wmsHandleToolCall t) wmsToolsJson kvs pkvs hm hp
    simp only [hn, Option.getD_some] at hd
    rw [wmsHTC_unknown t nm _ h1 h2 h3 h4] at hd
    exact hd
  · intro wu t kvs pkvs akvs nm hm hp hn ha h1 h2 h3 h4
    have hd := dispatch_tools_call (mockHandleToolCall wu t) mockToolsJson kvs pkvs hm hp
    simp only [hn, Option.getD_some] at hd
    rw [ha, mockHTC_unknown wu t nm akvs h1 h2 h3 h4] at hd
    exact hd

/-- Witness for C1: the concrete unknown tool `bogus` with dict arguments on
both servers. -/
theorem claim_C1_witness :
    wmsDispatch trivialTools
        (Json.obj (jfields [(chars "method", jstr "tools/call"),
          (chars "params", jobj [(chars "name", jstr "bogus"),
                                 (chars "arguments", jobj [])]),
          (chars "id", Json.num 4)]))
      = Except.ok (successEnvelope
          (jobj [(chars "error",
            Json.str (chars "Unknown tool: " ++ pyStrOf (jstr "bogus")))])
          ((lookupKvs (jfields [(chars "method", jstr "tools/call"),
              (chars "params", jobj [(chars "name", jstr "bogus"),
                                     (chars "arguments", jobj [])]),
              (chars "id", Json.num 4)]) (chars "id")).getD (Json.num 1)))
    ∧ mockDispatch none trivialTools
        (Json.obj (jfields [(chars "method", jstr "tools/call"),
          (chars "params", jobj [(chars "name", jstr "bogus"),
                                 (chars "arguments", jobj [])]),
          (chars "id", Json.num 4)]))
      = Except.ok (successEnvelope
          (jobj [(chars "error",
            Json.str (chars "Unknown tool: " ++ pyStrOf (jstr "bogus")))])
          ((lookupKvs (jfields [(chars "method", jstr "tools/call"),
              (chars "params", jobj [(chars "name", jstr "bogus"),
                                     (chars "arguments", jobj [])]),
              (chars "id", Json.num 4)]) (chars "id")).getD (Json.num 1))) :=
  ⟨claim_C1.1 trivialTools _ _ (jstr "bogus") rfl rfl rfl rfl rfl rfl rfl,
   claim_C1.2.1 none trivialTools _ _ (jfields []) (jstr "bogus")
     rfl rfl rfl rfl rfl rfl rfl rfl⟩

/-- C8: a `tools/list` request on either server is answered with a success
envelope listing the static registry, whose `name` members are exactly the
four registered tool names, each exactly once and in the dispatch order. -/
theorem claim_C8 :
    (∀ (wu : Option Chars) (t : ToolImpls) (kvs : JFields),
        lookupKvs kvs (chars "method") = some (jstr "tools/list") →
        mockDispatch wu t (Json.obj kvs)
          = Except.ok (successEnvelope (jobj [(chars "tools", Json.arr mockToolsJson)])
              ((lookupKvs kvs (chars "id")).getD (Json.num 1))))
    ∧ toolNamesOf mockToolsJson = registeredToolNames.map (fun n => some (Json.str n))
    ∧ (∀ (t : ToolImpls) (kvs : JFields),
        lookupKvs kvs (chars "method") = some (jstr "tools/list") →
        wmsDispatch t (Json.obj kvs)
          = Except.ok (successEnvelope (jobj [(chars "tools", Json.arr wmsToolsJson)])
              ((lookupKvs kvs (chars "id")).getD (Json.num 1))))
    ∧ toolNamesOf wmsToolsJson = registeredToolNames.map (fun n => some (Json.str n))
    ∧ registeredToolNames.Nodup := by
  refine ⟨?_, rfl, ?_, rfl, by decide⟩
  · intro wu t kvs hm
    exact dispatch_tools_list (mockHandleToolCall wu t) mockToolsJson kvs hm
  · intro t kvs hm
    exact dispatch_tools_list (wmsHandleToolCall t) wmsToolsJson kvs hm

/-- Witness for C8 on a concrete `tools/list` request to both servers. -/
theorem claim_C8_witness :
    mockDispatch none trivialTools
        (Json.obj (jfields [(chars "method", jstr "tools/list"), (chars "id", Json.num 2)]))
      = Except.ok (successEnvelope (jobj [(chars "tools", Json.arr mockToolsJson)])
          ((lookupKvs (jfields [(chars "method", jstr "tools/list"),
              (chars "id", Json.num 2)]) (chars "id")).getD (Json.num 1)))
    ∧ wmsDispatch trivialTools
        (Json.obj (jfields [(chars "method", jstr "tools/list"), (chars "id", Json.num 2)]))
      = Except.ok (successEnvelope (jobj [(chars "tools", Json.arr wmsToolsJson)])
          ((lookupKvs (jfields [(chars "method", jstr "tools/list"),
              (chars "id", Json.num 2)]) (chars "id")).getD (Json.num 1))) :=
  ⟨claim_C8.1 none trivialTools _ rfl, claim_C8.2.2.1 trivialTools _ rfl⟩

/-- C10: in every tool branch of both servers, a missing `location` argument
defaults to `"London"`; the remaining arguments keep their own defaults
(`days = 5`; units `WEATHER_UNITS` or `"metric"` in the mock server,
`"metric"` in the wms server). -/
theorem claim_C10 (wu : Option Chars) (t : ToolImpls) (akvs : JFields)
    (h : lookupKvs akvs (chars "location") = none) :
    mockHandleToolCall wu t (jstr "get_current_weather") (Json.obj akvs)
      = pyCatch (t.get_current_weather (jstr "London")
          ((lookupKvs akvs (chars "units")).getD (Json.str (wu.getD (chars "metric")))))
    ∧ mockHandleToolCall wu t (jstr "get_forecast") (Json.obj akvs)
      = pyCatch (t.get_forecast (jstr "London")
          ((lookupKvs akvs (chars "days")).getD (Json.num 5))
          ((lookupKvs akvs (chars "units")).getD (Json.str (wu.getD (chars "metric")))))
    ∧ mockHandleToolCall wu t (jstr "get_alerts") (Json.obj akvs)
      = pyCatch (t.get_alerts (jstr "London"))
    ∧ mockHandleToolCall wu t (jstr "get_air_quality") (Json.obj akvs)
      = pyCatch (t.get_air_quality (jstr "London"))
    ∧ wmsHandleToolCall t (jstr "get_current_weather") (Json.obj akvs)
      = pyCatch (t.get_current_weather (jstr "London")
          ((lookupKvs akvs (chars "units")).getD (jstr "metric")))
    ∧ wmsHandleToolCall t (jstr "get_forecast") (Json.obj akvs)
      = pyCatch (match t.get_forecast (jstr "London")
            ((lookupKvs akvs (chars "days")).getD (Json.num 5))
            ((lookupKvs akvs (chars "units")).getD (jstr "metric")) with
          | Except.ok r => Except.ok (if pyTruthy r then r
              else jobj [(chars "error", jstr "No forecast data available")])
          | Except.error e => Except.error e)
    ∧ wmsHandleToolCall t (jstr "get_alerts") (Json.obj akvs)
      = pyCatch (t.get_alerts (jstr "London"))
    ∧ wmsHandleToolCall t (jstr "get_air_quality") (Json.obj akvs)
      = pyCatch (t.get_air_quality (jstr "London")) := by
  have e11 : pyEqStr (jstr "get_current_weather") (chars "get_current_weather") = true := by
    decide
  have e21 : pyEqStr (jstr "get_forecast") (chars "get_current_weather") = false := by decide
  have e22 : pyEqStr (jstr "get_forecast") (chars "get_forecast") = true := by decide
  have e31 : pyEqStr (jstr "get_alerts") (chars "get_current_weather") = false := by decide
  have e32 : pyEqStr (jstr "get_alerts") (chars "get_forecast") = false := by decide
  have e33 : pyEqStr (jstr "get_alerts") (chars "get_alerts") = true := by decide
  have e41 : pyEqStr (jstr "get_air_quality") (chars "get_current_weather") = false := by
    decide
  have e42 : pyEqStr (jstr "get_air_quality") (chars "get_forecast") = false := by decide
  have e43 : pyEqStr (jstr "get_air_quality") (chars "get_alerts") = false := by decide
  have e44 : pyEqStr (jstr "get_air_quality") (chars "get_air_quality") = true := by decide
  refine ⟨?_, ?_, ?_, ?_, ?_, ?_, ?_, ?_⟩
  · simp [mockHandleToolCall, pyGetD, h, e11, Bind.bind, Except.bind]
  · simp [mockHandleToolCall, pyGetD, h, e21, e22, Bind.bind, Except.bind]
  · simp [mockHandleToolCall, pyGetD, h, e31, e32, e33, Bind.bind, Except.bind]
  · simp [mockHandleToolCall, pyGetD, h, e41, e42, e43, e44, Bind.bind, Except.bind]
  · simp [wmsHandleToolCall, pyGetD, h, e11, Bind.bind, Except.bind]
  · cases hres : t.get_forecast (jstr "London")
        ((lookupKvs akvs (chars "days")).getD (Json.num 5))
        ((lookupKvs akvs (chars "units")).getD (jstr "metric")) with
    | ok r =>
      simp [wmsHandleToolCall, pyGetD, h, e21, e22, Bind.bind, Except.bind, hres]
    | error e =>
      simp [wmsHandleToolCall, pyGetD, h, e21, e22, Bind.bind, Except.bind, hres, pyCatch]
  · simp [wmsHandleToolCall, pyGetD, h, e31, e32, e33, Bind.bind, Except.bind]
  · simp [wmsHandleToolCall, pyGetD, h, e41, e42, e43, e44, Bind.bind, Except.bind]

/-- Witness for C10 with empty arguments on concrete tool implementations. -/
theorem claim_C10_witness :
    mockHandleToolCall none trivialTools (jstr "get_current_weather")
        (Json.obj (jfields []))
      = pyCatch (trivialTools.get_current_weather (jstr "London")
          ((lookupKvs (jfields []) (chars "units")).getD
            (Json.str ((none : Option Chars).getD (chars "metric")))))
    ∧ wmsHandleToolCall trivialTools (jstr "get_alerts") (Json.obj (jfields []))
      = pyCatch (trivialTools.get_alerts (jstr "London")) :=
  ⟨(claim_C10 none trivialTools (jfields []) rfl).1,
   (claim_C10 none trivialTools (jfields []) rfl).2.2.2.2.2.2.1⟩

/-- C9: for a nonnegative `days`, the wms fallback forecast has exactly
`min days 3` records, never more than three, while the mock server's
forecast has exactly `days` records. -/
theorem claim_C9 (mk : Int → Json) (days : Int) (h : 0 ≤ days) :
    ((wmsGetForecastFallback mk days).length : Int) = min days 3
    ∧ (wmsGetForecastFallback mk days).length ≤ 3
    ∧ ((mockGetForecast mk days).length : Int) = days := by
  have hr : ∀ n : Int, (pyRange n).length = n.toNat := by
    intro n
    simp only [pyRange, List.length_map, List.length_range]
  refine ⟨?_, ?_, ?_⟩
  · rw [wmsGetForecastFallback, List.length_map, hr]
    omega
  · rw [wmsGetForecastFallback, List.length_map, hr]
    omega
  · rw [mockGetForecast, List.length_map, hr]
    omega

/-- Witness for C9 at `days = 5`: three records from the wms fallback, five
from the mock server. -/
theorem claim_C9_witness :
    ((wmsGetForecastFallback (fun _ => Json.null) 5).length : Int) = min 5 3
    ∧ ((mockGetForecast (fun _ => Json.null) 5).length : Int) = 5 :=
  ⟨(claim_C9 (fun _ => Json.null) 5 (by decide)).1,
   (claim_C9 (fun _ => Json.null) 5 (by decide)).2.2⟩

/-- C7: serializing a request envelope with `json.dumps` followed by a
newline and decoding the line with `json.loads` yields the original
envelope, whenever the carried params object has no duplicate keys. -/
theorem claim_C7 (m : Chars) (p : JFields) (i : Int)
    (h : jsonWf (Json.obj p) = true) :
    jsonLoads (encodeLine (requestMsg m p i)) = some (requestMsg m p i) := by
  apply jsonLoads_encodeLine
  simp only [requestMsg, jobj, jfields, jstr, jsonWf, keysNodup, fieldsWf, hasKey,
    Bool.and_eq_true]
  refine ⟨by decide, ?_⟩
  simp [jsonWf, h] at h ⊢
  simp_all

/-- Witness for C7 on the concrete request `tools/list` with empty params. -/
theorem claim_C7_witness :
    jsonLoads (encodeLine (requestMsg (chars "tools/list") (jfields []) 1))
      = some (requestMsg (chars "tools/list") (jfields []) 1) :=
  claim_C7 (chars "tools/list") (jfields []) 1 (by decide)
